import Mathlib

/-!
A verification development for the SQL DML resolver found in
`edb/pgsql/resolver/command.py`.  The Python functions are shallowly embedded
as executable Lean definitions: machine-level details that no property here
depends on (source spans, schema object identity, the external query compiler)
are abstracted as explicit parameters, while the control flow, data flow and
error behaviour of the resolver itself are translated statement by statement.
-/

set_option autoImplicit false

set_option maxRecDepth 4000

namespace EdgeRel

/-- Wire-protocol error classifications used by the resolver (`pgerror`
constants `ERROR_FEATURE_NOT_SUPPORTED` and `ERROR_DATA_EXCEPTION`). -/
inductive ErrCode where
  | featureNotSupported
  | dataException
deriving DecidableEq, Repr

/-- Failure modes of the embedded code.  `queryError` models the user-facing
`errors.QueryError` (message plus optional `pgext_code`); `assertionFailure`
models a failed Python `assert` and runtime faults such as `IndexError`;
`keyError` models a failed dictionary lookup (`ctx.compiled_dml[stmt]`);
`notImplemented` models `raise NotImplementedError`.  Everything except
`queryError` is a fatal programming error, not a user-facing error. -/
inductive Err where
  | queryError (msg : String) (pgextCode : Option ErrCode)
  | assertionFailure (msg : String)
  | keyError
  | notImplemented
deriving DecidableEq, Repr

/-- `irast.PathId`: a position reached by traversing the object graph.
`fromType` is `PathId.from_type`, `extendP` is `.extend(ptrref)`, `tgtPath`
and `ptrPath` are `.tgt_path()` / `.ptr_path()`.  Namespaces are not needed
by any property proved here and are omitted. -/
inductive PathId where
  | fromType (typename : String)
  | extendP (base : PathId) (ptrName : String)
  | tgtPath (base : PathId)
  | ptrPath (base : PathId)
deriving DecidableEq, Repr

/-- `PathId.rptr_name()`: the name of the last traversed pointer, if any. -/
def PathId.rptrName : PathId → Option String
  | .fromType _ => none
  | .extendP _ p => some p
  | .tgtPath b => b.rptrName
  | .ptrPath b => b.rptrName

/-- The fragment of `pgast` expressions the resolver constructs or inspects.
`keyword` is `pgast.Keyword` (the `DEFAULT` marker), `implicitRowExpr` a
`VALUES` row, `paramExpr` an opaque expression (placeholders, literals and
compiled output expressions that the resolver only moves around). -/
inductive PgExpr where
  | columnRef (names : List String) (nullable : Bool)
  | numericConstant (val : String)
  | nullConstant
  | keyword (kwName : String)
  | implicitRowExpr (args : List PgExpr)
  | typeCast (arg : PgExpr) (typeName : List String)
  | funcCall (fname : List String) (args : List PgExpr) (aggStar : Bool)
  | paramExpr (tag : Nat)

/-- `pgast.ResTarget`. -/
structure ResTarget where
  rname : Option String
  val : PgExpr

mutual
/-- The fragment of `pgast.Query` the resolver manipulates.  `selectStmt`
carries the fields read or written by the code under study; `insertStmt` is
`pgast.InsertStmt`; `otherQuery` stands for any other relation — in
particular for the opaque queries of compiler-emitted CTEs, whose only
observable part is their `path_outputs` mapping. -/
inductive Query where
  | selectStmt (targetList : List ResTarget) (fromClause : List FromItem)
      (values : List PgExpr) (limitCount : Option PgExpr) (ctes : List Cte)
  | insertStmt (d : InsertData)
  | otherQuery (tag : Nat) (ctes : List Cte)
      (pathOutputs : List ((PathId × String) × PgExpr))

/-- `pgast.RelRangeVar` / `pgast.RangeSubselect` as they occur in the code. -/
inductive FromItem where
  | relRangeVar (relName : String) (aliasname : Option String)
  | rangeSubselect (subquery : Query) (aliasname : Option String)

/-- The fields of `pgast.InsertStmt` that the resolver reads.  `id` stands
for the Python object identity of the node (used as a dictionary key). -/
inductive InsertData where
  | mk (id : Nat) (relName : String) (relAlias : Option String)
      (cols : List String) (selectStmt : Option Query) (ctes : List Cte)
      (returningList : List ResTarget)

/-- `pgast.CommonTableExpr`: name, the `for_dml_stmt` marker set by the
compiler (identity of a mutating IR statement, modelled as a `Nat`), and the
query. -/
inductive Cte where
  | mk (cname : String) (forDmlStmt : Option Nat) (query : Query)
end

def Cte.cname : Cte → String
  | .mk n _ _ => n

def Cte.forDmlStmt : Cte → Option Nat
  | .mk _ f _ => f

def Cte.query : Cte → Query
  | .mk _ _ q => q

def InsertData.id : InsertData → Nat
  | .mk i _ _ _ _ _ _ => i

def InsertData.relName : InsertData → String
  | .mk _ r _ _ _ _ _ => r

def InsertData.relAlias : InsertData → Option String
  | .mk _ _ a _ _ _ _ => a

def InsertData.cols : InsertData → List String
  | .mk _ _ _ c _ _ _ => c

def InsertData.selectStmt : InsertData → Option Query
  | .mk _ _ _ _ s _ _ => s

def InsertData.ctes : InsertData → List Cte
  | .mk _ _ _ _ _ c _ => c

def InsertData.returningList : InsertData → List ResTarget
  | .mk _ _ _ _ _ _ r => r

/-- The `ctes` attribute shared by every `pgast.Query`. -/
def Query.getCtes : Query → List Cte
  | .selectStmt _ _ _ _ c => c
  | .insertStmt (.mk _ _ _ _ _ c _) => c
  | .otherQuery _ c _ => c

/-- Assignment to the `ctes` attribute of a `pgast.Query` (setting `None`
is modelled as setting `[]`, which the code never distinguishes: it only
tests `ctes` for truthiness). -/
def Query.setCtes : Query → List Cte → Query
  | .selectStmt tl fc v lim _, c => .selectStmt tl fc v lim c
  | .insertStmt (.mk i r a cs s _ ret), c => .insertStmt (.mk i r a cs s c ret)
  | .otherQuery t _ po, c => .otherQuery t c po

/-- `context.Column`: name, hidden flag, and an opaque tag standing for the
`kind` projection descriptor (consumed only by the external
`resolve_column_kind`). -/
structure Column where
  name : String
  hidden : Bool
  kindTag : Nat
deriving DecidableEq, Repr

/-- `context.Table` (the fields used by the code under study). -/
structure Table where
  columns : List Column
deriving DecidableEq, Repr

deriving instance DecidableEq for Except

/-- The `path_outputs` attribute of a relation.  The resolver only reads it
on compiler-emitted CTE queries, which the embedding represents as
`otherQuery`; the queries the resolver itself constructs carry none. -/
def Query.pathOutputs : Query → List ((PathId × String) × PgExpr)
  | .otherQuery _ _ po => po
  | _ => []

/-- First-error sequencing of a fallible function over a list, exactly the
behaviour of a Python `for` loop whose body may `raise`. -/
def exceptMapM {α β : Type} (f : α → Except Err β) : List α → Except Err (List β)
  | [] => .ok []
  | a :: l =>
    match f a with
    | .error e => .error e
    | .ok b =>
      match exceptMapM f l with
      | .error e => .error e
      | .ok bs => .ok (b :: bs)

/-- First-error fold of a fallible function, for loops that accumulate. -/
def exceptFoldlM {σ α : Type} (f : σ → α → Except Err σ) : σ → List α → Except Err σ
  | s, [] => .ok s
  | s, a :: l =>
    match f s a with
    | .error e => .error e
    | .ok t => exceptFoldlM f t l

/-- `_pull_columns_from_table`.  The `col_names` argument is
`Optional[Iterable[...]]`; the guard `if not col_names` is satisfied both by
`None` and by an empty sequence, so both return all non-hidden columns.
The `col_map` dictionary maps each name to the *last* column of that name
(later dictionary writes win), modelled by searching the reversed column
list.  Source spans are dropped from the embedding. -/
def pullColumnsFromTable (table : Table) (colNames : Option (List String)) :
    Except Err (List Column) :=
  match colNames with
  | none => .ok (table.columns.filter (fun c => !c.hidden))
  | some [] => .ok (table.columns.filter (fun c => !c.hidden))
  | some names =>
    exceptMapM (fun n =>
      match table.columns.reverse.find? (fun c => c.name == n) with
      | some c => .ok c
      | none => .error (.queryError ("column " ++ n ++ " does not exist") none)) names

lemma exceptMapM_pull_ok (table : Table) :
    ∀ ns : List String,
      (∀ n ∈ ns, (table.columns.reverse.find? (fun c => c.name == n)).isSome) →
      exceptMapM (fun n =>
        match table.columns.reverse.find? (fun c => c.name == n) with
        | some c => .ok c
        | none => .error (.queryError ("column " ++ n ++ " does not exist") none)) ns =
      .ok (ns.filterMap (fun n => table.columns.reverse.find? (fun c => c.name == n))) := by
  intro ns h
  induction ns with
  | nil => rfl
  | cons n ns ih =>
    have hn := h n (by simp)
    obtain ⟨c, hc⟩ := Option.isSome_iff_exists.mp hn
    have ih2 := ih (fun m hm => h m (by simp [hm]))
    simp only [exceptMapM, hc, ih2, List.filterMap_cons]

lemma exceptMapM_pull_err (table : Table) :
    ∀ (pre : List String) (bad : String) (post : List String),
      (∀ n ∈ pre, (table.columns.reverse.find? (fun c => c.name == n)).isSome) →
      table.columns.reverse.find? (fun c => c.name == bad) = none →
      exceptMapM (fun n =>
        match table.columns.reverse.find? (fun c => c.name == n) with
        | some c => .ok c
        | none => .error (.queryError ("column " ++ n ++ " does not exist") none))
        (pre ++ bad :: post) =
      .error (.queryError ("column " ++ bad ++ " does not exist") none) := by
  intro pre bad post hpre hbad
  induction pre with
  | nil => simp only [List.nil_append, exceptMapM, hbad]
  | cons n ns ih =>
    have hn := hpre n (by simp)
    obtain ⟨c, hc⟩ := Option.isSome_iff_exists.mp hn
    have ih2 := ih (fun m hm => hpre m (by simp [hm]))
    simp only [List.cons_append, exceptMapM, hc, List.append_eq, ih2]

/-- C10 counterexample: called with an explicit *empty* column-name list, the
function does not return "exactly the named columns" (which would be `[]`):
Python's `if not col_names` treats an empty list like `None`, so all visible
columns come back instead. -/
theorem pull_columns_empty_list_cex :
    pullColumnsFromTable (Table.mk [Column.mk "a" false 0, Column.mk "b" true 0]) (some []) =
      .ok [Column.mk "a" false 0] ∧
    pullColumnsFromTable (Table.mk [Column.mk "a" false 0, Column.mk "b" true 0]) (some []) ≠
      .ok ([] : List Column) := by
  constructor
  · rfl
  · decide

/-- C10 (amended): with no column list — or an explicit empty one, which the
truthiness test cannot distinguish from `None` — all non-hidden columns are
returned in table order.  For a non-empty explicit list, the function
returns, for each name in the given order, the last column of the table
bearing that name (hidden or not), and it raises a query error naming the
first listed name that does not exist. -/
theorem pull_columns_amended (table : Table) (ns : List String) :
    (pullColumnsFromTable table none = .ok (table.columns.filter (fun c => !c.hidden))) ∧
    (pullColumnsFromTable table (some []) = .ok (table.columns.filter (fun c => !c.hidden))) ∧
    (ns ≠ [] →
      (∀ n ∈ ns, (table.columns.reverse.find? (fun c => c.name == n)).isSome) →
      pullColumnsFromTable table (some ns) =
        .ok (ns.filterMap (fun n => table.columns.reverse.find? (fun c => c.name == n)))) ∧
    (∀ pre bad post, ns = pre ++ bad :: post →
      (∀ n ∈ pre, (table.columns.reverse.find? (fun c => c.name == n)).isSome) →
      table.columns.reverse.find? (fun c => c.name == bad) = none →
      pullColumnsFromTable table (some ns) =
        .error (.queryError ("column " ++ bad ++ " does not exist") none)) := by
  refine ⟨rfl, rfl, ?_, ?_⟩
  · intro hne hall
    match ns, hne with
    | n :: rest, _ =>
      exact exceptMapM_pull_ok table (n :: rest) hall
  · intro pre bad post heq hpre hbad
    subst heq
    have : pre ++ bad :: post ≠ [] := by simp
    match h : pre ++ bad :: post, this with
    | n :: rest, _ =>
      rw [pullColumnsFromTable.eq_def]
      simp only
      rw [← h]
      exact exceptMapM_pull_err table pre bad post hpre hbad

/-- Witness for the amended C10 theorem: a table with a hidden column `h`;
the explicit list `["h", "a"]` returns exactly those columns, hidden flag
ignored and order as given, while an unknown name errors with its name. -/
theorem pull_columns_amended_witness :
    pullColumnsFromTable (Table.mk [Column.mk "a" false 0, Column.mk "h" true 0])
        (some ["h", "a"]) =
      .ok [Column.mk "h" true 0, Column.mk "a" false 0] ∧
    pullColumnsFromTable (Table.mk [Column.mk "a" false 0, Column.mk "h" true 0])
        (some ["z"]) =
      .error (.queryError ("column " ++ "z" ++ " does not exist") none) := by
  constructor
  · exact ((pull_columns_amended (Table.mk [Column.mk "a" false 0, Column.mk "h" true 0])
      ["h", "a"]).2.2.1 (by simp) (by decide)).trans (by decide)
  · exact (pull_columns_amended (Table.mk [Column.mk "a" false 0, Column.mk "h" true 0])
      ["z"]).2.2.2 [] "z" [] rfl (by simp) (by decide)

/-- `is_default` from `_preprocess_insert_value`: a `pgast.Keyword` whose name
is `DEFAULT`. -/
def isDefaultKw : PgExpr → Bool
  | .keyword n => n == "DEFAULT"
  | _ => false

/-- The first loop of the `VALUES` branch of `_preprocess_insert_value`: each
row must be a `pgast.ImplicitRowExpr` (asserted), and its argument list is
collected. -/
def extractRows : List PgExpr → Except Err (List (List PgExpr))
  | [] => .ok []
  | .implicitRowExpr args :: rest =>
    match extractRows rest with
    | .error e => .error e
    | .ok rs => .ok (args :: rs)
  | _ :: _ => .error (.assertionFailure "row is not an ImplicitRowExpr")

/-- Whether some row has the `DEFAULT` keyword at position `p`. -/
def hasDefaultAt (rows : List (List PgExpr)) (p : Nat) : Bool :=
  rows.any (fun r =>
    match r.get? p with
    | some e => isDefaultKw e
    | none => false)

/-- Largest row width, bounding the column positions that can hold `DEFAULT`. -/
def rowsMaxLen (rows : List (List PgExpr)) : Nat :=
  rows.foldr (fun r acc => max r.length acc) 0

/-- `sorted(default_columns, reverse=True)`: the positions (strictly below
`n`) at which some row uses `DEFAULT`, listed in descending order. -/
def defaultColumnsAux (rows : List (List PgExpr)) : Nat → List Nat
  | 0 => []
  | n + 1 =>
    if hasDefaultAt rows n then n :: defaultColumnsAux rows n
    else defaultColumnsAux rows n

/-- The descending list of column positions where any row uses `DEFAULT`. -/
def defaultColumns (rows : List (List PgExpr)) : List Nat :=
  defaultColumnsAux rows (rowsMaxLen rows)

/-- `del expected_columns[to_remove]`: Python raises `IndexError` when the
index is out of range. -/
def deleteAtChecked {α : Type} (p : Nat) (l : List α) : Except Err (List α) :=
  if p < l.length then .ok (l.eraseIdx p) else
    .error (.assertionFailure "IndexError: list assignment index out of range")

/-- Body of the inner row loop of `_preprocess_insert_value` for one position:
index the row (IndexError if out of range), require the entry to be `DEFAULT`
(unsupported-feature query error otherwise) and delete it. -/
def processRow (p : Nat) (args : List PgExpr) : Except Err (List PgExpr) :=
  match args.get? p with
  | none => .error (.assertionFailure "IndexError: list index out of range")
  | some a =>
    if isDefaultKw a then .ok (args.eraseIdx p)
    else .error (.queryError
      "DEFAULT keyword is supported only when used for a column in all rows"
      (some .featureNotSupported))

/-- The `for to_remove in sorted(default_columns, reverse=True)` loop: for
each position, first delete the expected column, then walk the rows deleting
the (mandatory) `DEFAULT` entry. -/
def processDefaults : List Nat → List (List PgExpr) → List Column →
    Except Err (List (List PgExpr) × List Column)
  | [], rows, expected => .ok (rows, expected)
  | p :: ps, rows, expected =>
    match deleteAtChecked p expected with
    | .error e => .error e
    | .ok expected2 =>
      match exceptMapM (processRow p) rows with
      | .error e => .error e
      | .ok rows2 => processDefaults ps rows2 expected2

/-- The rewrite of the degenerate `VALUES (), (), …` case:
`SELECT FROM (VALUES (NULL), …, (NULL)) AS _` with one `NULL` row per
original row. -/
def emptyRowsRewrite (rows : List (List PgExpr)) : Query :=
  Query.selectStmt [] [FromItem.rangeSubselect
      (Query.selectStmt [] []
        (rows.map (fun _ => PgExpr.implicitRowExpr [PgExpr.nullConstant]))
        none [])
      (some "_")]
    [] none []

/-- `_preprocess_insert_value`.  A missing row source (`DEFAULT VALUES`)
yields an empty-values select with no expected columns.  A literal `VALUES`
list has its `DEFAULT` columns removed; finally the statement's own CTEs are
attached to the (previously CTE-free, asserted) value query. -/
def preprocessInsertValue (valueQuery : Option Query) (valueCtes : List Cte)
    (expectedColumns : List Column) : Except Err (Query × List Column) :=
  match valueQuery with
  | none => .ok (Query.selectStmt [] [] [] none [], [])
  | some vq =>
    let step : Except Err (Query × List Column) :=
      match vq with
      | .selectStmt tl fc values lim ctes0 =>
        if values.isEmpty then .ok (vq, expectedColumns)
        else
          match extractRows values with
          | .error e => .error e
          | .ok rows =>
            match processDefaults (defaultColumns rows) rows expectedColumns with
            | .error e => .error e
            | .ok (rows2, expected2) =>
              match rows2 with
              | [] :: _ => .ok (emptyRowsRewrite rows2, expected2)
              | _ => .ok (Query.selectStmt tl fc (rows2.map PgExpr.implicitRowExpr)
                  lim ctes0, expected2)
      | _ => .ok (vq, expectedColumns)
    match step with
    | .error e => .error e
    | .ok (vq2, expected2) =>
      if vq2.getCtes.isEmpty then .ok (vq2.setCtes valueCtes, expected2)
      else .error (.assertionFailure "value_query.ctes must be empty")

/-- Sequentially erasing a descending list of positions, the pure core of the
deletion loop. -/
def eraseIdxAll {α : Type} (ps : List Nat) (l : List α) : List α :=
  ps.foldl (fun acc p => acc.eraseIdx p) l

lemma eraseIdxAll_nil {α : Type} (l : List α) : eraseIdxAll [] l = l := rfl

lemma eraseIdxAll_cons {α : Type} (p : Nat) (ps : List Nat) (l : List α) :
    eraseIdxAll (p :: ps) l = eraseIdxAll ps (l.eraseIdx p) := rfl

lemma length_eraseIdx_of_lt {α : Type} :
    ∀ (l : List α) (i : Nat), i < l.length → (l.eraseIdx i).length = l.length - 1 := by
  intro l
  induction l with
  | nil => intro i h; simp at h
  | cons a as ih =>
    intro i h
    cases i with
    | zero => simp [List.eraseIdx]
    | succ n =>
      have hn : n < as.length := by simpa using h
      simp [List.eraseIdx, ih n hn]
      omega

lemma eraseIdx_of_length_le {α : Type} :
    ∀ (l : List α) (i : Nat), l.length ≤ i → l.eraseIdx i = l := by
  intro l
  induction l with
  | nil => intro i _; simp [List.eraseIdx]
  | cons a as ih =>
    intro i h
    cases i with
    | zero => simp at h
    | succ n => simp [List.eraseIdx, ih n (by simpa using h)]

lemma get?_eraseIdx_of_lt {α : Type} :
    ∀ (l : List α) (i j : Nat), j < i → (l.eraseIdx i).get? j = l.get? j := by
  intro l
  induction l with
  | nil => intro i j _; simp [List.eraseIdx]
  | cons a as ih =>
    intro i j h
    cases i with
    | zero => omega
    | succ n =>
      cases j with
      | zero => simp [List.eraseIdx]
      | succ m => simpa [List.eraseIdx] using ih n m (by omega)

lemma get?_eraseIdx_of_ge {α : Type} :
    ∀ (l : List α) (i j : Nat), i < l.length → i ≤ j →
      (l.eraseIdx i).get? j = l.get? (j + 1) := by
  intro l
  induction l with
  | nil => intro i j h _; simp at h
  | cons a as ih =>
    intro i j hi hij
    cases i with
    | zero => simp [List.eraseIdx]
    | succ n =>
      cases j with
      | zero => omega
      | succ m =>
        have hn : n < as.length := by simpa using hi
        simpa [List.eraseIdx] using ih n m hn (by omega)

/-- Every element surviving `eraseIdxAll` over a strictly descending list of
positions sits at an original position outside that list. -/
lemma eraseIdxAll_mem {α : Type} :
    ∀ (ps : List Nat) (l : List α),
      ps.Pairwise (fun a b => b < a) →
      ∀ x ∈ eraseIdxAll ps l, ∃ i, i < l.length ∧ i ∉ ps ∧ l.get? i = some x := by
  intro ps
  induction ps with
  | nil =>
    intro l _ x hx
    rw [eraseIdxAll_nil] at hx
    obtain ⟨⟨n, hn⟩, hget⟩ := List.mem_iff_get.mp hx
    refine ⟨n, hn, by simp, ?_⟩
    rw [List.get?_eq_get hn, hget]
  | cons p ps ih =>
    intro l hpw x hx
    rw [eraseIdxAll_cons] at hx
    have hall : ∀ b ∈ ps, b < p := fun b hb => (List.pairwise_cons.mp hpw).1 b hb
    have hpw2 : ps.Pairwise (fun a b => b < a) := (List.pairwise_cons.mp hpw).2
    obtain ⟨i, hilen, hips, hget⟩ := ih (l.eraseIdx p) hpw2 x hx
    by_cases hp : p < l.length
    · by_cases hip : i < p
      · exact ⟨i, by omega, by
          simp only [List.mem_cons, not_or]
          exact ⟨by omega, hips⟩, by rwa [get?_eraseIdx_of_lt l p i hip] at hget⟩
      · have hle : p ≤ i := by omega
        have hlen2 : (l.eraseIdx p).length = l.length - 1 := length_eraseIdx_of_lt l p hp
        refine ⟨i + 1, by omega, ?_, ?_⟩
        · simp only [List.mem_cons, not_or]
          constructor
          · omega
          · intro hmem
            exact absurd (hall _ hmem) (by omega)
        · rwa [get?_eraseIdx_of_ge l p i hp hle] at hget
    · rw [eraseIdx_of_length_le l p (by omega)] at hget hilen
      refine ⟨i, hilen, ?_, hget⟩
      simp only [List.mem_cons, not_or]
      exact ⟨by omega, hips⟩

lemma mem_defaultColumnsAux (rows : List (List PgExpr)) :
    ∀ n p, p ∈ defaultColumnsAux rows n ↔ p < n ∧ hasDefaultAt rows p = true := by
  intro n
  induction n with
  | zero => intro p; simp [defaultColumnsAux]
  | succ m ih =>
    intro p
    by_cases hm : hasDefaultAt rows m = true
    · simp only [defaultColumnsAux]
      rw [if_pos hm, List.mem_cons, ih p]
      constructor
      · rintro (rfl | ⟨h1, h2⟩)
        · exact ⟨Nat.lt_succ_self p, hm⟩
        · exact ⟨Nat.lt_succ_of_lt h1, h2⟩
      · rintro ⟨h1, h2⟩
        rcases Nat.lt_succ_iff_lt_or_eq.mp h1 with h | rfl
        · exact Or.inr ⟨h, h2⟩
        · exact Or.inl rfl
    · simp only [defaultColumnsAux]
      rw [if_neg hm, ih p]
      constructor
      · rintro ⟨h1, h2⟩
        exact ⟨Nat.lt_succ_of_lt h1, h2⟩
      · rintro ⟨h1, h2⟩
        rcases Nat.lt_succ_iff_lt_or_eq.mp h1 with h | rfl
        · exact ⟨h, h2⟩
        · exact absurd h2 hm

lemma defaultColumnsAux_sorted (rows : List (List PgExpr)) :
    ∀ n, (defaultColumnsAux rows n).Pairwise (fun a b => b < a) := by
  intro n
  induction n with
  | zero => simp [defaultColumnsAux]
  | succ m ih =>
    by_cases hm : hasDefaultAt rows m = true
    · simp only [defaultColumnsAux]
      rw [if_pos hm]
      refine List.pairwise_cons.mpr ⟨?_, ih⟩
      intro b hb
      exact ((mem_defaultColumnsAux rows m b).mp hb).1
    · simp only [defaultColumnsAux]
      rw [if_neg hm]
      exact ih

lemma mem_defaultColumns (rows : List (List PgExpr)) (p : Nat) :
    p ∈ defaultColumns rows ↔ p < rowsMaxLen rows ∧ hasDefaultAt rows p = true :=
  mem_defaultColumnsAux rows (rowsMaxLen rows) p

lemma defaultColumns_sorted (rows : List (List PgExpr)) :
    (defaultColumns rows).Pairwise (fun a b => b < a) :=
  defaultColumnsAux_sorted rows (rowsMaxLen rows)

lemma length_le_rowsMaxLen (rows : List (List PgExpr)) :
    ∀ r ∈ rows, r.length ≤ rowsMaxLen rows := by
  induction rows with
  | nil => intro r hr; simp at hr
  | cons a as ih =>
    intro r hr
    rcases List.mem_cons.mp hr with rfl | hr2
    · simp only [rowsMaxLen, List.foldr_cons]
      omega
    · have := ih r hr2
      simp only [rowsMaxLen, List.foldr_cons]
      have h2 : (as.foldr (fun r acc => max r.length acc) 0) = rowsMaxLen as := rfl
      omega

lemma processRow_ok (p : Nat) (args r : List PgExpr)
    (h : processRow p args = .ok r) :
    r = args.eraseIdx p ∧ ∃ a, args.get? p = some a ∧ isDefaultKw a = true := by
  unfold processRow at h
  cases hget : args.get? p with
  | none =>
    simp only [hget] at h
    exact absurd h (by simp)
  | some a =>
    simp only [hget] at h
    by_cases hd : isDefaultKw a = true
    · rw [if_pos hd] at h
      exact ⟨(Except.ok.inj h).symm, a, rfl, hd⟩
    · rw [if_neg hd] at h
      exact absurd h (by simp)

lemma exceptMapM_processRow_ok (p : Nat) :
    ∀ (rows rows2 : List (List PgExpr)),
      exceptMapM (processRow p) rows = .ok rows2 →
      rows2 = rows.map (fun r => r.eraseIdx p) ∧
      ∀ r ∈ rows, ∃ a, r.get? p = some a ∧ isDefaultKw a = true := by
  intro rows
  induction rows with
  | nil =>
    intro rows2 h
    simp only [exceptMapM] at h
    exact ⟨(Except.ok.inj h).symm, by simp⟩
  | cons r rs ih =>
    intro rows2 h
    simp only [exceptMapM] at h
    cases h1 : processRow p r with
    | error e => rw [h1] at h; exact absurd h (by simp)
    | ok b =>
      rw [h1] at h
      cases h2 : exceptMapM (processRow p) rs with
      | error e => rw [h2] at h; exact absurd h (by simp)
      | ok bs =>
        rw [h2] at h
        obtain ⟨hb, ha⟩ := processRow_ok p r b h1
        obtain ⟨hbs, hall⟩ := ih bs h2
        refine ⟨?_, ?_⟩
        · rw [← Except.ok.inj h, hb, hbs, List.map_cons]
        · intro x hx
          rcases List.mem_cons.mp hx with rfl | hx2
          · exact ha
          · exact hall x hx2

lemma exceptMapM_processRow_mixed (p : Nat) :
    ∀ (rows : List (List PgExpr)),
      (∀ r ∈ rows, (r.get? p).isSome) →
      (∃ r ∈ rows, ∃ a, r.get? p = some a ∧ isDefaultKw a = false) →
      exceptMapM (processRow p) rows = .error (.queryError
        "DEFAULT keyword is supported only when used for a column in all rows"
        (some .featureNotSupported)) := by
  intro rows
  induction rows with
  | nil =>
    rintro _ ⟨r, hr, _⟩
    simp at hr
  | cons r rs ih =>
    rintro hsome ⟨r0, hr0, a0, hget0, hnd0⟩
    rcases List.mem_cons.mp hr0 with rfl | hmem
    · simp only [exceptMapM, processRow, hget0]
      rw [if_neg (by simp [hnd0])]
    · obtain ⟨a, ha⟩ := Option.isSome_iff_exists.mp (hsome r (by simp))
      simp only [exceptMapM, processRow, ha]
      by_cases hd : isDefaultKw a = true
      · rw [if_pos hd]
        rw [ih (fun x hx => hsome x (by simp [hx])) ⟨r0, hmem, a0, hget0, hnd0⟩]
      · rw [if_neg hd]

lemma processDefaults_ok :
    ∀ (ps : List Nat) (rows rows2 : List (List PgExpr)) (ecols e2 : List Column),
      processDefaults ps rows ecols = .ok (rows2, e2) →
      rows2 = rows.map (eraseIdxAll ps) ∧ e2 = eraseIdxAll ps ecols := by
  intro ps
  induction ps with
  | nil =>
    intro rows rows2 ecols e2 h
    simp only [processDefaults] at h
    have h3 := Except.ok.inj h
    have h1 : rows = rows2 := congrArg Prod.fst h3
    have h2 : ecols = e2 := congrArg Prod.snd h3
    refine ⟨?_, h2.symm⟩
    rw [← h1]
    simp only [show eraseIdxAll ([] : List Nat) = @id (List PgExpr) from
      funext fun l => rfl, List.map_id]
  | cons p ps ih =>
    intro rows rows2 ecols e2 h
    simp only [processDefaults] at h
    cases h1 : deleteAtChecked p ecols with
    | error e => rw [h1] at h; exact absurd h (by simp)
    | ok ecols2 =>
      rw [h1] at h
      cases h2 : exceptMapM (processRow p) rows with
      | error e => rw [h2] at h; exact absurd h (by simp)
      | ok rowsA =>
        rw [h2] at h
        obtain ⟨hrows, _⟩ := exceptMapM_processRow_ok p rows rowsA h2
        obtain ⟨hr2, he2⟩ := ih rowsA rows2 ecols2 e2 h
        have hec : ecols2 = ecols.eraseIdx p := by
          unfold deleteAtChecked at h1
          by_cases hp : p < ecols.length
          · rw [if_pos hp] at h1
            exact (Except.ok.inj h1).symm
          · rw [if_neg hp] at h1
            exact absurd h1 (by simp)
        refine ⟨?_, ?_⟩
        · rw [hr2, hrows, List.map_map]
          rfl
        · rw [he2, hec, eraseIdxAll_cons]

/-- After a successful run over all default positions, no `DEFAULT` marker is
left anywhere in the surviving rows. -/
lemma no_default_after_processDefaults
    (rows rows2 : List (List PgExpr)) (ecols e2 : List Column)
    (h : processDefaults (defaultColumns rows) rows ecols = .ok (rows2, e2)) :
    ∀ r ∈ rows2, ∀ a ∈ r, isDefaultKw a = false := by
  obtain ⟨hrows, _⟩ := processDefaults_ok (defaultColumns rows) rows rows2 ecols e2 h
  subst hrows
  intro r hr a ha
  obtain ⟨r0, hr0, rfl⟩ := List.mem_map.mp hr
  obtain ⟨i, hi, hkeep, hget⟩ :=
    eraseIdxAll_mem (defaultColumns rows) r0 (defaultColumns_sorted rows) a ha
  by_contra hcon
  have hd : isDefaultKw a = true := by
    cases hb : isDefaultKw a
    · exact absurd hb hcon
    · rfl
  have hdef : hasDefaultAt rows i = true := by
    unfold hasDefaultAt
    rw [List.any_eq_true]
    exact ⟨r0, hr0, by rw [hget]; exact hd⟩
  have hmem : i ∈ defaultColumns rows :=
    (mem_defaultColumns rows i).mpr
      ⟨Nat.lt_of_lt_of_le hi (length_le_rowsMaxLen rows r0 hr0), hdef⟩
  exact hkeep hmem

lemma extractRows_map (rows : List (List PgExpr)) :
    extractRows (rows.map PgExpr.implicitRowExpr) = .ok rows := by
  induction rows with
  | nil => rfl
  | cons r rs ih => simp only [List.map_cons, extractRows, ih]

lemma extractRows_length :
    ∀ (values : List PgExpr) (rows : List (List PgExpr)),
      extractRows values = .ok rows → rows.length = values.length := by
  intro values
  induction values with
  | nil =>
    intro rows h
    simp only [extractRows] at h
    rw [← Except.ok.inj h]
    rfl
  | cons v vs ih =>
    intro rows h
    cases v with
    | implicitRowExpr args =>
      simp only [extractRows] at h
      cases h2 : extractRows vs with
      | error e => rw [h2] at h; exact absurd h (by simp)
      | ok rs =>
        rw [h2] at h
        rw [← Except.ok.inj h]
        simp [ih rs h2]
    | columnRef a b => exact absurd h (by simp [extractRows])
    | numericConstant a => exact absurd h (by simp [extractRows])
    | nullConstant => exact absurd h (by simp [extractRows])
    | keyword a => exact absurd h (by simp [extractRows])
    | typeCast a b => exact absurd h (by simp [extractRows])
    | funcCall a b c => exact absurd h (by simp [extractRows])
    | paramExpr a => exact absurd h (by simp [extractRows])

lemma setCtes_nil_of_getCtes_nil (q : Query) (h : q.getCtes = []) :
    q.setCtes [] = q := by
  cases q with
  | selectStmt tl fc v lim c =>
    simp only [Query.getCtes] at h
    simp [Query.setCtes, h]
  | insertStmt d =>
    cases d with
    | mk i r a cs s c ret =>
      simp only [Query.getCtes] at h
      simp [Query.setCtes, h]
  | otherQuery t c po =>
    simp only [Query.getCtes] at h
    simp [Query.setCtes, h]

lemma rowsMaxLen_le (n : Nat) :
    ∀ rows : List (List PgExpr), (∀ r ∈ rows, r.length ≤ n) → rowsMaxLen rows ≤ n := by
  intro rows
  induction rows with
  | nil => intro _; simp [rowsMaxLen]
  | cons r rs ih =>
    intro h
    have h1 := h r (by simp)
    have h2 := ih (fun x hx => h x (by simp [hx]))
    simp only [rowsMaxLen, List.foldr_cons] at h2 ⊢
    omega

lemma rowsMaxLen_eq (n : Nat) (rows : List (List PgExpr)) (hne : rows ≠ [])
    (hlen : ∀ r ∈ rows, r.length = n) : rowsMaxLen rows = n := by
  match rows, hne with
  | r :: rs, _ =>
    have h1 : r.length ≤ rowsMaxLen (r :: rs) := length_le_rowsMaxLen _ r (by simp)
    have h2 : rowsMaxLen (r :: rs) ≤ n :=
      rowsMaxLen_le n _ (fun x hx => Nat.le_of_eq (hlen x hx))
    have h3 := hlen r (by simp)
    omega

lemma eraseIdxAll_length {α : Type} :
    ∀ (ps : List Nat) (l : List α),
      ps.Pairwise (fun a b => b < a) → (∀ p ∈ ps, p < l.length) →
      (eraseIdxAll ps l).length = l.length - ps.length := by
  intro ps
  induction ps with
  | nil => intro l _ _; simp [eraseIdxAll]
  | cons p ps ih =>
    intro l hpw hbnd
    have hp : p < l.length := hbnd p (by simp)
    have hall : ∀ b ∈ ps, b < p := fun b hb => (List.pairwise_cons.mp hpw).1 b hb
    rw [eraseIdxAll_cons]
    rw [ih (l.eraseIdx p) (List.pairwise_cons.mp hpw).2 ?_]
    · rw [length_eraseIdx_of_lt l p hp]
      simp only [List.length_cons]
      omega
    · intro q hq
      rw [length_eraseIdx_of_lt l p hp]
      have := hall q hq
      omega

lemma exceptMapM_processRow_success (p : Nat) :
    ∀ rows : List (List PgExpr),
      (∀ r ∈ rows, ∃ a, r.get? p = some a ∧ isDefaultKw a = true) →
      exceptMapM (processRow p) rows = .ok (rows.map (fun r => r.eraseIdx p)) := by
  intro rows
  induction rows with
  | nil => intro _; rfl
  | cons r rs ih =>
    intro h
    obtain ⟨a, ha, hd⟩ := h r (by simp)
    simp only [exceptMapM, processRow, ha]
    rw [if_pos hd, ih (fun x hx => h x (by simp [hx]))]
    rfl

lemma processDefaults_success :
    ∀ (ps : List Nat) (rows : List (List PgExpr)) (ecols : List Column),
      ps.Pairwise (fun a b => b < a) →
      (∀ p ∈ ps, p < ecols.length) →
      (∀ p ∈ ps, ∀ r ∈ rows, ∃ a, r.get? p = some a ∧ isDefaultKw a = true) →
      processDefaults ps rows ecols =
        .ok (rows.map (eraseIdxAll ps), eraseIdxAll ps ecols) := by
  intro ps
  induction ps with
  | nil =>
    intro rows ecols _ _ _
    simp only [processDefaults, eraseIdxAll_nil]
    rw [show eraseIdxAll ([] : List Nat) = @id (List PgExpr) from funext fun l => rfl,
      List.map_id]
  | cons p ps ih =>
    intro rows ecols hpw hbnd hdef
    have hp : p < ecols.length := hbnd p (by simp)
    have hall : ∀ b ∈ ps, b < p := fun b hb => (List.pairwise_cons.mp hpw).1 b hb
    simp only [processDefaults, deleteAtChecked]
    rw [if_pos hp]
    rw [exceptMapM_processRow_success p rows (hdef p (by simp))]
    show processDefaults ps (rows.map (fun r => r.eraseIdx p)) (ecols.eraseIdx p) =
      .ok (rows.map (eraseIdxAll (p :: ps)), eraseIdxAll (p :: ps) ecols)
    rw [ih (rows.map (fun r => r.eraseIdx p)) (ecols.eraseIdx p)
      (List.pairwise_cons.mp hpw).2 ?_ ?_]
    · rw [List.map_map]
      rfl
    · intro q hq
      rw [length_eraseIdx_of_lt ecols p hp]
      have := hall q hq
      omega
    · intro q hq r hr
      obtain ⟨r0, hr0, rfl⟩ := List.mem_map.mp hr
      obtain ⟨a, ha, hd⟩ := hdef q (by simp [hq]) r0 hr0
      exact ⟨a, by rw [get?_eraseIdx_of_lt r0 p q (hall q hq)]; exact ha, hd⟩

lemma processDefaults_mixed :
    ∀ (ps : List Nat) (rows : List (List PgExpr)) (ecols : List Column),
      ps.Pairwise (fun a b => b < a) →
      (∀ p ∈ ps, p < ecols.length) →
      (∀ r ∈ rows, r.length = ecols.length) →
      (∃ p ∈ ps, ∃ r ∈ rows, ∃ a, r.get? p = some a ∧ isDefaultKw a = false) →
      processDefaults ps rows ecols = .error (.queryError
        "DEFAULT keyword is supported only when used for a column in all rows"
        (some .featureNotSupported)) := by
  intro ps
  induction ps with
  | nil =>
    rintro rows ecols _ _ _ ⟨p, hp, _⟩
    simp at hp
  | cons q ps ih =>
    rintro rows ecols hpw hbnd hrlen ⟨p, hp, r0, hr0, a0, hget0, hnd0⟩
    have hq : q < ecols.length := hbnd q (by simp)
    have hall : ∀ b ∈ ps, b < q := fun b hb => (List.pairwise_cons.mp hpw).1 b hb
    have hsome : ∀ r ∈ rows, (r.get? q).isSome := by
      intro r hr
      rw [List.get?_eq_get (by rw [hrlen r hr]; exact hq)]
      simp
    simp only [processDefaults, deleteAtChecked]
    rw [if_pos hq]
    by_cases hmq : ∃ r ∈ rows, ∃ a, r.get? q = some a ∧ isDefaultKw a = false
    · rw [exceptMapM_processRow_mixed q rows hsome hmq]
    · have hdefq : ∀ r ∈ rows, ∃ a, r.get? q = some a ∧ isDefaultKw a = true := by
        intro r hr
        obtain ⟨a, ha⟩ := Option.isSome_iff_exists.mp (hsome r hr)
        refine ⟨a, ha, ?_⟩
        cases hb : isDefaultKw a
        · exact absurd ⟨r, hr, a, ha, hb⟩ hmq
        · rfl
      rw [exceptMapM_processRow_success q rows hdefq]
      show processDefaults ps (rows.map (fun r => r.eraseIdx q)) (ecols.eraseIdx q) =
        .error (.queryError
          "DEFAULT keyword is supported only when used for a column in all rows"
          (some .featureNotSupported))
      have hpps : p ∈ ps := by
        rcases List.mem_cons.mp hp with rfl | h
        · obtain ⟨a, ha, hd⟩ := hdefq r0 hr0
          rw [hget0] at ha
          rw [Option.some.inj ha] at hnd0
          rw [hd] at hnd0
          exact absurd hnd0 (by simp)
        · exact h
      refine ih (rows.map (fun r => r.eraseIdx q)) (ecols.eraseIdx q)
        (List.pairwise_cons.mp hpw).2 ?_ ?_ ?_
      · intro b hb
        rw [length_eraseIdx_of_lt ecols q hq]
        have := hall b hb
        omega
      · intro r hr
        obtain ⟨rr, hrr, rfl⟩ := List.mem_map.mp hr
        rw [length_eraseIdx_of_lt rr q (by rw [hrlen rr hrr]; exact hq),
          length_eraseIdx_of_lt ecols q hq, hrlen rr hrr]
      · refine ⟨p, hpps, r0.eraseIdx q, List.mem_map.mpr ⟨r0, hr0, rfl⟩, a0, ?_, hnd0⟩
        rw [get?_eraseIdx_of_lt r0 q p (hall p hpps)]
        exact hget0

/-- C3: for an `INSERT` whose row source is a literal `VALUES` list (rows of
equal width `n`, matching the expected-column count), (a) a position where one
row uses `DEFAULT` and another does not makes value normalization fail with
the unsupported-feature-classified query error; (b) when every position that
uses `DEFAULT` anywhere is used by *all* rows, normalization succeeds, the
expected-column list loses exactly the (descending) defaulted positions —
so no assignment for those columns survives — and, as long as some column
remains, every row loses exactly those entries as well. -/
theorem insert_value_default_handling
    (tl : List ResTarget) (fc : List FromItem) (lim : Option PgExpr)
    (vctes : List Cte) (rows : List (List PgExpr)) (ecols : List Column) (n : Nat)
    (hne : rows ≠ [])
    (hlen : ∀ r ∈ rows, r.length = n)
    (hcols : ecols.length = n) :
    ((∃ p, p < n ∧
        (∃ r ∈ rows, ∃ a, r.get? p = some a ∧ isDefaultKw a = true) ∧
        (∃ r ∈ rows, ∃ a, r.get? p = some a ∧ isDefaultKw a = false)) →
      preprocessInsertValue
          (some (Query.selectStmt tl fc (rows.map PgExpr.implicitRowExpr) lim []))
          vctes ecols =
        .error (.queryError
          "DEFAULT keyword is supported only when used for a column in all rows"
          (some .featureNotSupported))) ∧
    ((∀ p ∈ defaultColumns rows, ∀ r ∈ rows,
        ∃ a, r.get? p = some a ∧ isDefaultKw a = true) →
      (defaultColumns rows).length < n →
      preprocessInsertValue
          (some (Query.selectStmt tl fc (rows.map PgExpr.implicitRowExpr) lim []))
          vctes ecols =
        .ok (Query.selectStmt tl fc
              ((rows.map (eraseIdxAll (defaultColumns rows))).map PgExpr.implicitRowExpr)
              lim vctes,
            eraseIdxAll (defaultColumns rows) ecols)) := by
  obtain ⟨r0, rs, rfl⟩ : ∃ a l, rows = a :: l := by
    cases rows with
    | nil => exact absurd rfl hne
    | cons a l => exact ⟨a, l, rfl⟩
  have hmax : rowsMaxLen (r0 :: rs) = n := rowsMaxLen_eq n _ hne hlen
  have hval : (List.map PgExpr.implicitRowExpr (r0 :: rs)).isEmpty = false := rfl
  have hex : extractRows (List.map PgExpr.implicitRowExpr (r0 :: rs)) = .ok (r0 :: rs) :=
    extractRows_map _
  have hbnd : ∀ q ∈ defaultColumns (r0 :: rs), q < ecols.length := by
    intro q hq
    have := (mem_defaultColumns _ q).mp hq
    omega
  constructor
  · rintro ⟨p, hpn, ⟨rd, hrd, ad, hgetd, hdd⟩, rm, hrm, am, hgetm, hdm⟩
    have hpD : p ∈ defaultColumns (r0 :: rs) := by
      rw [mem_defaultColumns]
      refine ⟨by omega, ?_⟩
      unfold hasDefaultAt
      rw [List.any_eq_true]
      exact ⟨rd, hrd, by rw [hgetd]; exact hdd⟩
    have herr := processDefaults_mixed (defaultColumns (r0 :: rs)) (r0 :: rs) ecols
      (defaultColumns_sorted _) hbnd
      (fun r hr => by rw [hlen r hr, hcols])
      ⟨p, hpD, rm, hrm, am, hgetm, hdm⟩
    simp only [preprocessInsertValue, hval, Bool.false_eq_true, if_false, hex, herr]
  · intro hall hrem
    have hok := processDefaults_success (defaultColumns (r0 :: rs)) (r0 :: rs) ecols
      (defaultColumns_sorted _) hbnd hall
    have hlenD : (eraseIdxAll (defaultColumns (r0 :: rs)) r0).length =
        n - (defaultColumns (r0 :: rs)).length := by
      rw [eraseIdxAll_length (defaultColumns (r0 :: rs)) r0 (defaultColumns_sorted _)
        (fun q hq => by
          have := (mem_defaultColumns _ q).mp hq
          have h0 := hlen r0 (by simp)
          omega)]
      rw [hlen r0 (by simp)]
    obtain ⟨a0, t0, h0⟩ : ∃ a t, eraseIdxAll (defaultColumns (r0 :: rs)) r0 = a :: t := by
      cases hcase : eraseIdxAll (defaultColumns (r0 :: rs)) r0 with
      | nil =>
        rw [hcase] at hlenD
        simp at hlenD
        omega
      | cons a t => exact ⟨a, t, rfl⟩
    have hex2 : extractRows
        (PgExpr.implicitRowExpr r0 :: List.map PgExpr.implicitRowExpr rs) =
        .ok (r0 :: rs) := by
      have := extractRows_map (r0 :: rs)
      rwa [List.map_cons] at this
    simp only [preprocessInsertValue, List.map_cons, List.isEmpty_cons,
      Bool.false_eq_true, if_false, hex2, hok, h0, Query.getCtes, List.isEmpty_nil,
      if_true, Query.setCtes]

/-- Witness for the C3 theorem: `VALUES (1, DEFAULT), (2, 3)` (mixed second
column) errors, while `VALUES (1, DEFAULT), (2, DEFAULT)` succeeds and drops
the second column from rows and expected columns alike. -/
theorem insert_value_default_handling_witness :
    preprocessInsertValue
        (some (Query.selectStmt [] []
          (List.map PgExpr.implicitRowExpr
            [[PgExpr.numericConstant "1", PgExpr.keyword "DEFAULT"],
             [PgExpr.numericConstant "2", PgExpr.numericConstant "3"]])
          none []))
        [] [Column.mk "a" false 0, Column.mk "b" false 0] =
      .error (.queryError
        "DEFAULT keyword is supported only when used for a column in all rows"
        (some .featureNotSupported)) ∧
    preprocessInsertValue
        (some (Query.selectStmt [] []
          (List.map PgExpr.implicitRowExpr
            [[PgExpr.numericConstant "1", PgExpr.keyword "DEFAULT"],
             [PgExpr.numericConstant "2", PgExpr.keyword "DEFAULT"]])
          none []))
        [] [Column.mk "a" false 0, Column.mk "b" false 0] =
      .ok (Query.selectStmt [] []
            [PgExpr.implicitRowExpr [PgExpr.numericConstant "1"],
             PgExpr.implicitRowExpr [PgExpr.numericConstant "2"]]
            none [],
          [Column.mk "a" false 0]) := by
  constructor
  · exact (insert_value_default_handling [] [] none []
      [[PgExpr.numericConstant "1", PgExpr.keyword "DEFAULT"],
       [PgExpr.numericConstant "2", PgExpr.numericConstant "3"]]
      [Column.mk "a" false 0, Column.mk "b" false 0] 2
      (by simp) (by decide) (by decide)).1
      ⟨1, by decide,
        ⟨[PgExpr.numericConstant "1", PgExpr.keyword "DEFAULT"], by simp, PgExpr.keyword "DEFAULT", rfl, rfl⟩,
        ⟨[PgExpr.numericConstant "2", PgExpr.numericConstant "3"], by simp,
          PgExpr.numericConstant "3", rfl, rfl⟩⟩
  · exact ((insert_value_default_handling [] [] none []
      [[PgExpr.numericConstant "1", PgExpr.keyword "DEFAULT"],
       [PgExpr.numericConstant "2", PgExpr.keyword "DEFAULT"]]
      [Column.mk "a" false 0, Column.mk "b" false 0] 2
      (by simp) (by decide) (by decide)).2
      (by
        intro p hp r hr
        have hp2 : p ∈ [1] := hp
        have hpe : p = 1 := by simpa using hp2
        subst hpe
        rcases (by simpa using hr :
            r = [PgExpr.numericConstant "1", PgExpr.keyword "DEFAULT"] ∨
            r = [PgExpr.numericConstant "2", PgExpr.keyword "DEFAULT"]) with rfl | rfl
        · exact ⟨PgExpr.keyword "DEFAULT", rfl, rfl⟩
        · exact ⟨PgExpr.keyword "DEFAULT", rfl, rfl⟩)
      (by decide))

lemma defaultColumns_eq_nil (rows : List (List PgExpr))
    (h : ∀ r ∈ rows, ∀ a ∈ r, isDefaultKw a = false) :
    defaultColumns rows = [] := by
  rw [List.eq_nil_iff_forall_not_mem]
  intro p hp
  obtain ⟨_, hdef⟩ := (mem_defaultColumns rows p).mp hp
  unfold hasDefaultAt at hdef
  rw [List.any_eq_true] at hdef
  obtain ⟨r, hr, hx⟩ := hdef
  cases hg : r.get? p with
  | none =>
    simp only [hg] at hx
    exact absurd hx (by simp)
  | some a =>
    simp only [hg] at hx
    rw [h r hr a (List.get?_mem hg)] at hx
    exact absurd hx (by simp)

/-- C8 counterexample: when the first normalization call carries a non-empty
statement CTE list, it attaches those CTEs to the value query, so the second
call trips over the `value_query.ctes` assertion instead of returning its
input unchanged. -/
theorem preprocess_value_idempotent_cex :
    preprocessInsertValue
        (some (Query.selectStmt [] [] [PgExpr.implicitRowExpr [PgExpr.nullConstant]] none []))
        [Cte.mk "c" none (Query.selectStmt [] [] [] none [])]
        [Column.mk "a" false 0] =
      .ok (Query.selectStmt [] [] [PgExpr.implicitRowExpr [PgExpr.nullConstant]] none
            [Cte.mk "c" none (Query.selectStmt [] [] [] none [])],
          [Column.mk "a" false 0]) ∧
    preprocessInsertValue
        (some (Query.selectStmt [] [] [PgExpr.implicitRowExpr [PgExpr.nullConstant]] none
          [Cte.mk "c" none (Query.selectStmt [] [] [] none [])]))
        []
        [Column.mk "a" false 0] =
      .error (.assertionFailure "value_query.ctes must be empty") :=
  ⟨rfl, rfl⟩

/-- C8 (amended): the value-relation normalizer is idempotent whenever the
first call carried no statement CTEs: feeding its output query and expected
columns back in (with no CTEs) returns them unchanged — no `DEFAULT` markers
remain and the empty-row rewrite cannot trigger again.  (With a non-empty
CTE list the second call instead fails the no-pre-existing-CTEs assertion.) -/
theorem preprocess_value_idempotent
    (vq : Option Query) (ecols e2 : List Column) (q2 : Query)
    (h : preprocessInsertValue vq [] ecols = .ok (q2, e2)) :
    preprocessInsertValue (some q2) [] e2 = .ok (q2, e2) := by
  cases vq with
  | none =>
    simp only [preprocessInsertValue] at h
    injection h with h1
    injection h1 with hq he
    subst hq
    subst he
    rfl
  | some v =>
    cases v with
    | insertStmt d =>
      cases d with
      | mk i r a cs s c ret =>
        cases c with
        | nil =>
          simp only [preprocessInsertValue, Query.getCtes, List.isEmpty_nil, if_true,
            Query.setCtes] at h
          injection h with h1
          injection h1 with hq he
          subst hq
          subst he
          rfl
        | cons c0 cr =>
          simp only [preprocessInsertValue, Query.getCtes, List.isEmpty_cons,
            Bool.false_eq_true, if_false] at h
          exact absurd h (by simp)
    | otherQuery t c po =>
      cases c with
      | nil =>
        simp only [preprocessInsertValue, Query.getCtes, List.isEmpty_nil, if_true,
          Query.setCtes] at h
        injection h with h1
        injection h1 with hq he
        subst hq
        subst he
        rfl
      | cons c0 cr =>
        simp only [preprocessInsertValue, Query.getCtes, List.isEmpty_cons,
          Bool.false_eq_true, if_false] at h
        exact absurd h (by simp)
    | selectStmt tl fc values lim ctes0 =>
      cases values with
      | nil =>
        cases ctes0 with
        | nil =>
          simp only [preprocessInsertValue, List.isEmpty_nil, if_true, Query.getCtes,
            Query.setCtes] at h
          injection h with h1
          injection h1 with hq he
          subst hq
          subst he
          rfl
        | cons c0 cr =>
          simp only [preprocessInsertValue, List.isEmpty_nil, if_true, Query.getCtes,
            List.isEmpty_cons, Bool.false_eq_true, if_false] at h
          exact absurd h (by simp)
      | cons v0 vs =>
        simp only [preprocessInsertValue, List.isEmpty_cons, Bool.false_eq_true,
          if_false] at h
        cases hex : extractRows (v0 :: vs) with
        | error e =>
          simp only [hex] at h
          exact absurd h (by simp)
        | ok rows =>
          simp only [hex] at h
          cases hpd : processDefaults (defaultColumns rows) rows ecols with
          | error e =>
            simp only [hpd] at h
            exact absurd h (by simp)
          | ok pr =>
            obtain ⟨rows2, expected2⟩ := pr
            simp only [hpd] at h
            have hrowsne : rows ≠ [] := by
              have hl := extractRows_length (v0 :: vs) rows hex
              intro hcon
              rw [hcon] at hl
              simp at hl
            have hrows2 : rows2 = rows.map (eraseIdxAll (defaultColumns rows)) :=
              (processDefaults_ok _ rows rows2 ecols expected2 hpd).1
            have hnodef := no_default_after_processDefaults rows rows2 ecols expected2 hpd
            cases rows2 with
            | nil =>
              exfalso
              cases rows with
              | nil => exact hrowsne rfl
              | cons rr rrs => simp at hrows2
            | cons rh rt =>
              cases rh with
              | nil =>
                simp only [emptyRowsRewrite, Query.getCtes, List.isEmpty_nil, if_true,
                  Query.setCtes] at h
                injection h with h1
                injection h1 with hq he
                subst hq
                subst he
                rfl
              | cons x xt =>
                cases ctes0 with
                | cons c0 cr =>
                  simp only [Query.getCtes, List.isEmpty_cons, Bool.false_eq_true,
                    if_false] at h
                  exact absurd h (by simp)
                | nil =>
                  simp only [Query.getCtes, List.isEmpty_nil, if_true,
                    Query.setCtes] at h
                  injection h with h1
                  injection h1 with hq he
                  subst hq
                  subst he
                  have hnodef2 : defaultColumns ((x :: xt) :: rt) = [] :=
                    defaultColumns_eq_nil _ hnodef
                  have hex2 : extractRows
                      (PgExpr.implicitRowExpr (x :: xt) ::
                        List.map PgExpr.implicitRowExpr rt) =
                      .ok ((x :: xt) :: rt) := by
                    have := extractRows_map ((x :: xt) :: rt)
                    rwa [List.map_cons] at this
                  simp only [preprocessInsertValue, List.map_cons, List.isEmpty_cons,
                    Bool.false_eq_true, if_false, hex2, hnodef2, processDefaults,
                    Query.getCtes, List.isEmpty_nil, if_true, Query.setCtes]

/-- Witness for the amended C8 theorem, applied to a CTE-free `VALUES (NULL)`
normalization whose first run is computed by `rfl`. -/
theorem preprocess_value_idempotent_witness :
    preprocessInsertValue
        (some (Query.selectStmt [] [] [PgExpr.implicitRowExpr [PgExpr.nullConstant]] none []))
        [] [Column.mk "a" false 0] =
      .ok (Query.selectStmt [] [] [PgExpr.implicitRowExpr [PgExpr.nullConstant]] none [],
        [Column.mk "a" false 0]) :=
  preprocess_value_idempotent
    (some (Query.selectStmt [] [] [PgExpr.implicitRowExpr [PgExpr.nullConstant]] none []))
    [Column.mk "a" false 0] [Column.mk "a" false 0]
    (Query.selectStmt [] [] [PgExpr.implicitRowExpr [PgExpr.nullConstant]] none [])
    rfl

/-- The `while` loop of `_compile_preprocessed_dml` that claims the CTE run
of one statement: `found_it` tracks whether a CTE with a matching
`for_dml_stmt` marker has been seen; the loop stops (without consuming) at
the first non-matching CTE after a match, and otherwise pops from the
front. -/
def takeGroup (m : Nat) (foundIt : Bool) : List Cte → List Cte × List Cte
  | [] => ([], [])
  | c :: rest =>
    if c.forDmlStmt ≠ some m ∧ foundIt = true then ([], c :: rest)
    else
      let r := takeGroup m (foundIt || decide (c.forDmlStmt = some m)) rest
      (c :: r.1, r.2)

/-- The per-statement partition of the compiled CTE list: each marker, in
statement order, claims its `takeGroup` run; whatever remains is the
leftover list returned to the caller. -/
def partitionCtes : List Nat → List Cte → List (List Cte) × List Cte
  | [], ctes => ([], ctes)
  | m :: ms, ctes =>
    let g := takeGroup m false ctes
    let r := partitionCtes ms g.2
    (g.1 :: r.1, r.2)

/-- The claim's description of one statement's run: the group is a front
segment of the list; it splits into a (possibly empty) prefix of
non-matching CTEs followed by matching ones only — so once a match has been
seen every further consumed CTE matches; and if anything is left, the group
did contain a match and the first unconsumed CTE does not match (it belongs
to a different statement). -/
def GroupRun (m : Nat) (ctes g rest : List Cte) : Prop :=
  ctes = g ++ rest ∧
  (∃ p q, g = p ++ q ∧ (∀ c ∈ p, c.forDmlStmt ≠ some m) ∧
    (∀ c ∈ q, c.forDmlStmt = some m)) ∧
  (∀ c, rest.head? = some c →
    (∃ x ∈ g, x.forDmlStmt = some m) ∧ c.forDmlStmt ≠ some m)

/-- The whole walk: statement after statement, each marker claims a
`GroupRun` of what is left, and the final remainder is the leftover list. -/
inductive PartitionSpec : List Nat → List Cte → List (List Cte) → List Cte → Prop where
  | nil (ctes : List Cte) : PartitionSpec [] ctes [] ctes
  | cons (m : Nat) (ms : List Nat) (ctes g rest : List Cte)
      (gs : List (List Cte)) (leftover : List Cte) :
      GroupRun m ctes g rest → PartitionSpec ms rest gs leftover →
      PartitionSpec (m :: ms) ctes (g :: gs) leftover

lemma takeGroup_spec (m : Nat) :
    ∀ (ctes : List Cte) (foundIt : Bool),
      ctes = (takeGroup m foundIt ctes).1 ++ (takeGroup m foundIt ctes).2 ∧
      (∃ p q, (takeGroup m foundIt ctes).1 = p ++ q ∧
        (∀ c ∈ p, c.forDmlStmt ≠ some m) ∧
        (∀ c ∈ q, c.forDmlStmt = some m) ∧
        (foundIt = true → p = [])) ∧
      (∀ c, (takeGroup m foundIt ctes).2.head? = some c →
        (foundIt = true ∨ ∃ x ∈ (takeGroup m foundIt ctes).1, x.forDmlStmt = some m) ∧
        c.forDmlStmt ≠ some m) := by
  intro ctes
  induction ctes with
  | nil =>
    intro foundIt
    refine ⟨rfl, ⟨[], [], rfl, by simp, by simp, fun _ => rfl⟩, ?_⟩
    intro c hc
    simp [takeGroup] at hc
  | cons c0 rest ih =>
    intro foundIt
    by_cases hstop : c0.forDmlStmt ≠ some m ∧ foundIt = true
    · refine ⟨?_, ⟨[], [], ?_, by simp, by simp, fun _ => rfl⟩, ?_⟩
      · simp [takeGroup, hstop]
      · simp [takeGroup, hstop]
      · intro c hc
        simp only [takeGroup, if_pos hstop, List.head?_cons, Option.some.injEq] at hc
        subst hc
        exact ⟨Or.inl hstop.2, hstop.1⟩
    · obtain ⟨hsplit, ⟨p, q, hpq, hp, hq, hfp⟩, hrest⟩ :=
        ih (foundIt || decide (c0.forDmlStmt = some m))
      by_cases hmatch : c0.forDmlStmt = some m
      · have hfound : (foundIt || decide (c0.forDmlStmt = some m)) = true := by
          simp [hmatch]
        have hpnil : p = [] := hfp hfound
        subst hpnil
        refine ⟨?_, ⟨[], c0 :: q, ?_, by simp, ?_, fun _ => rfl⟩, ?_⟩
        · simp only [takeGroup, if_neg hstop]
          simpa using hsplit
        · simp only [takeGroup, if_neg hstop]
          rw [hpq]
          simp
        · intro c hc
          rcases List.mem_cons.mp hc with rfl | hc2
          · exact hmatch
          · exact hq c hc2
        · intro c hc
          simp only [takeGroup, if_neg hstop] at hc
          have h2 := hrest c hc
          refine ⟨Or.inr ⟨c0, ?_, hmatch⟩, h2.2⟩
          simp [takeGroup, if_neg hstop]
      · have hnf : foundIt = false := by
          cases hb : foundIt
          · rfl
          · exact absurd ⟨hmatch, hb⟩ hstop
        have hfound : (foundIt || decide (c0.forDmlStmt = some m)) = false := by
          simp [hnf, hmatch]
        refine ⟨?_, ⟨c0 :: p, q, ?_, ?_, hq, ?_⟩, ?_⟩
        · simp only [takeGroup, if_neg hstop]
          simpa using hsplit
        · simp only [takeGroup, if_neg hstop]
          rw [hpq]
          simp
        · intro c hc
          rcases List.mem_cons.mp hc with rfl | hc2
          · exact hmatch
          · exact hp c hc2
        · intro hcon
          rw [hnf] at hcon
          exact absurd hcon (by simp)
        · intro c hc
          simp only [takeGroup, if_neg hstop] at hc
          have h2 := hrest c hc
          rcases h2.1 with hfo | ⟨x, hx, hxm⟩
          · rw [hfound] at hfo
            exact absurd hfo (by simp)
          · refine ⟨Or.inr ⟨x, ?_, hxm⟩, h2.2⟩
            simp only [takeGroup, if_neg hstop, List.mem_cons]
            exact Or.inr hx

lemma takeGroup_groupRun (m : Nat) (ctes : List Cte) :
    GroupRun m ctes (takeGroup m false ctes).1 (takeGroup m false ctes).2 := by
  obtain ⟨hsplit, ⟨p, q, hpq, hp, hq, _⟩, hrest⟩ := takeGroup_spec m ctes false
  refine ⟨hsplit, ⟨p, q, hpq, hp, hq⟩, ?_⟩
  intro c hc
  have h2 := hrest c hc
  rcases h2.1 with hfo | hex
  · exact absurd hfo (by simp)
  · exact ⟨hex, h2.2⟩

/-- C1: the compiled CTE list is partitioned in order: every statement, in
statement order, claims a contiguous front run of the remaining CTEs (all
CTEs up to — but not including — the first CTE that stops matching its
mutating-statement marker once a match has been seen), the groups and the
leftover list concatenate back to the original list (so the groups are
pairwise non-overlapping and order-preserving), and the leftovers belong to
no statement's run. -/
theorem partition_ctes_contiguous_runs (ms : List Nat) (ctes : List Cte) :
    PartitionSpec ms ctes (partitionCtes ms ctes).1 (partitionCtes ms ctes).2 ∧
    ((partitionCtes ms ctes).1).flatten ++ (partitionCtes ms ctes).2 = ctes := by
  induction ms generalizing ctes with
  | nil => exact ⟨PartitionSpec.nil ctes, rfl⟩
  | cons m ms ih =>
    obtain ⟨hspec, hjoin⟩ := ih (takeGroup m false ctes).2
    have hrun := takeGroup_groupRun m ctes
    refine ⟨PartitionSpec.cons m ms ctes _ _ _ _ hrun hspec, ?_⟩
    simp only [partitionCtes, List.flatten_cons, List.append_assoc, hjoin]
    exact hrun.1.symm

/-- The `ptr_map` construction of `_compile_preprocessed_dml`: each
`(path_id, aspect) ↦ output_var` entry of the final CTE's `path_outputs`
becomes `(rptr_name-or-id, aspect) ↦ output_var`.  A Python dict is built in
iteration order, so later entries overwrite earlier ones. -/
def buildPtrMap (pouts : List ((PathId × String) × PgExpr)) :
    List ((String × String) × PgExpr) :=
  pouts.map (fun e =>
    ((match (e.1.1).rptrName with
      | none => "id"
      | some n => n, e.1.2), e.2))

/-- Dictionary lookup over the insertion-ordered entry list: the last
matching write wins. -/
def ptrMapGet (pm : List ((String × String) × PgExpr)) (k : String × String) :
    Option PgExpr :=
  (pm.reverse.find? (fun e => e.1 == k)).map (fun e => e.2)

/-- The per-column expression resolution of `_compile_preprocessed_dml`
(lines 841–848): try aspect `serialized`, then `value`, then `identity`;
then, for pointer name `source` or `target`, unconditionally replace the
result with a literal column reference.  `none` means the trailing `assert
val` fails. -/
def resolveOutputVal (pm : List ((String × String) × PgExpr)) (ptrName : String) :
    Option PgExpr :=
  let v := ptrMapGet pm (ptrName, "serialized")
  let v := match v with
    | none => ptrMapGet pm (ptrName, "value")
    | some x => some x
  let v := match v with
    | none => ptrMapGet pm (ptrName, "identity")
    | some x => some x
  if ptrName = "source" ∨ ptrName = "target" then
    some (PgExpr.columnRef [ptrName] false)
  else v

/-- The `output_namespace` loop over `subject_columns`: one resolved
expression per recorded `(column_name, pointer_name)` pair; a pair that
resolves to nothing trips the assertion. -/
def buildOutputNamespace (subjectColumns : List (String × String))
    (pm : List ((String × String) × PgExpr)) :
    Except Err (List (String × PgExpr)) :=
  exceptMapM (fun cp =>
    match resolveOutputVal pm cp.2 with
    | some v => .ok (cp.1, v)
    | none => .error (.assertionFailure
        (cp.2 ++ " was in shape, but not in path_namespace"))) subjectColumns

/-- Modelled from the spec's words, for comparison with the code: the
literal column reference for `source`/`target` is only a *fallback*, used
when no aspect resolves. -/
def resolveOutputValSpecRead (pm : List ((String × String) × PgExpr))
    (ptrName : String) : Option PgExpr :=
  let v := ptrMapGet pm (ptrName, "serialized")
  let v := match v with
    | none => ptrMapGet pm (ptrName, "value")
    | some x => some x
  let v := match v with
    | none => ptrMapGet pm (ptrName, "identity")
    | some x => some x
  match v with
  | some x => some x
  | none =>
    if ptrName = "source" ∨ ptrName = "target" then
      some (PgExpr.columnRef [ptrName] false)
    else none

/-- C2 counterexample: when the path-output map does resolve an aspect for
pointer name `source`, the code still substitutes the literal column
reference, whereas the claim's fallback reading would keep the resolved
serialized expression. -/
theorem output_namespace_source_fallback_cex :
    resolveOutputVal
        [((("source", "serialized")), PgExpr.columnRef ["zzz"] false)] "source" =
      some (PgExpr.columnRef ["source"] false) ∧
    resolveOutputValSpecRead
        [((("source", "serialized")), PgExpr.columnRef ["zzz"] false)] "source" =
      some (PgExpr.columnRef ["zzz"] false) ∧
    resolveOutputVal
        [((("source", "serialized")), PgExpr.columnRef ["zzz"] false)] "source" ≠
      resolveOutputValSpecRead
        [((("source", "serialized")), PgExpr.columnRef ["zzz"] false)] "source" := by
  refine ⟨rfl, rfl, ?_⟩
  intro h
  have h2 : some (PgExpr.columnRef ["source"] false) =
      some (PgExpr.columnRef ["zzz"] false) := h
  have h3 := Option.some.inj h2
  injection h3 with hl hb
  injection hl with hh ht
  exact absurd hh (by decide)

/-- C2 (amended): for every recorded `(column_name, pointer_name)` pair the
expression is resolved by trying aspects `serialized`, `value`, `identity`
in that order, except that for pointer names `source`/`target` a literal
column reference is *always* used, overriding any aspect resolution; and a
recorded pointer name that resolves to nothing makes the whole
output-namespace construction fail with an assertion failure (a fatal
error), never with a user-facing query error. -/
theorem output_namespace_resolution (pm : List ((String × String) × PgExpr))
    (cols : List (String × String)) (colName ptrName : String) :
    (ptrName = "source" ∨ ptrName = "target" →
      resolveOutputVal pm ptrName = some (PgExpr.columnRef [ptrName] false)) ∧
    (ptrName ≠ "source" → ptrName ≠ "target" →
      resolveOutputVal pm ptrName =
        (match ptrMapGet pm (ptrName, "serialized") with
         | some x => some x
         | none =>
           match ptrMapGet pm (ptrName, "value") with
           | some x => some x
           | none => ptrMapGet pm (ptrName, "identity"))) ∧
    ((colName, ptrName) ∈ cols → resolveOutputVal pm ptrName = none →
      ∃ msg, buildOutputNamespace cols pm = .error (.assertionFailure msg)) := by
  refine ⟨?_, ?_, ?_⟩
  · intro hst
    unfold resolveOutputVal
    rw [if_pos hst]
  · intro hs ht
    unfold resolveOutputVal
    rw [if_neg (by simp [hs, ht])]
    cases ptrMapGet pm (ptrName, "serialized") with
    | some x => rfl
    | none =>
      cases ptrMapGet pm (ptrName, "value") with
      | some x => rfl
      | none => rfl
  · intro hmem hnone
    induction cols with
    | nil => simp at hmem
    | cons c cs ih =>
      rcases List.mem_cons.mp hmem with heq | hmem2
      · refine ⟨ptrName ++ " was in shape, but not in path_namespace", ?_⟩
        simp only [buildOutputNamespace, exceptMapM, ← heq, hnone]
      · simp only [buildOutputNamespace, exceptMapM]
        cases hr : resolveOutputVal pm c.2 with
        | none => exact ⟨c.2 ++ " was in shape, but not in path_namespace", rfl⟩
        | some v =>
          obtain ⟨msg, hmsg⟩ := ih hmem2
          refine ⟨msg, ?_⟩
          simp only [buildOutputNamespace] at hmsg
          rw [hmsg]

/-- Witness for the amended C2 theorem: the `source` override on an empty
map, the aspect chain for an ordinary pointer, and the fatal assertion for a
recorded pair with no resolution. -/
theorem output_namespace_resolution_witness :
    resolveOutputVal [] "source" = some (PgExpr.columnRef ["source"] false) ∧
    resolveOutputVal [((("p", "value")), PgExpr.paramExpr 7)] "p" =
      some (PgExpr.paramExpr 7) ∧
    (∃ msg, buildOutputNamespace [("c", "q")] [] = .error (.assertionFailure msg)) := by
  refine ⟨?_, ?_, ?_⟩
  · exact (output_namespace_resolution [] [] "c" "source").1 (Or.inl rfl)
  · exact ((output_namespace_resolution [((("p", "value")), PgExpr.paramExpr 7)]
      [] "c" "p").2.1 (by decide) (by decide)).trans rfl
  · exact (output_namespace_resolution [] [("c", "q")] "c" "q").2.2 (by simp) rfl

/-- `qlast` path elements: `IRAnchor`, `ObjectRef` and `Ptr` (the latter with
its optional `type='property'` marker). -/
inductive QlPathElem where
  | irAnchor (aname : String)
  | objectRef (aname : String)
  | ptr (pname : String) (ptype : Option String)
deriving DecidableEq, Repr

/-- `qlast.ShapeOp`. -/
inductive ShapeOp where
  | assign
  | append
deriving DecidableEq, Repr

mutual
/-- The fragment of `qlast` expressions the preprocessor constructs. -/
inductive QlExpr where
  | insertQuery (subject : String) (shape : List QlShapeElement)
  | updateQuery (subject : QlExpr) (whereClause : QlExpr) (shape : List QlShapeElement)
  | forQuery (iterator : QlExpr) (iteratorAlias : String) (result : QlExpr)
  | pathExpr (steps : List QlPathElem) (isPartial : Bool)
  | typeCastQl (typeName : String) (expr : QlExpr)
  | shapeExpr (expr : Option QlExpr) (elements : List QlShapeElement)
  | binOp (left : QlExpr) (op : String) (right : QlExpr)
  | selectQuery (aliases : List (String × QlExpr)) (result : QlExpr)
  | detachedExpr (expr : QlExpr)

/-- `qlast.ShapeElement`: target path, optional shape operation, optional
computed expression. -/
inductive QlShapeElement where
  | mk (expr : QlExpr) (operation : Option ShapeOp) (compexpr : Option QlExpr)
end

/-- Is the synthetic statement wrapped in a for-each iteration construct? -/
def QlExpr.isForQuery : QlExpr → Bool
  | .forQuery _ _ _ => true
  | _ => false

/-- Schema-object kinds that `_preprocess_insert_stmt` dispatches on. -/
inductive SubjectKind where
  | objectType
  | link
  | property
  | otherObject
deriving DecidableEq, Repr

/-- The schema facts about the insertion subject consumed by the
preprocessors, abstracting the external schema catalog (§6 of the spec):
names, source/target of a pointer subject, cardinality, and pointer lookup
(`maybe_get_ptr` is `hasPtr`; a link pointer's target name is
`ptrTargetName`). -/
structure SubjectInfo where
  kind : SubjectKind
  name : String
  shortName : String
  sourceName : Option String
  sourceIsObjectType : Bool
  targetName : Option String
  cardinalityMany : Bool
  hasPtr : String → Bool
  ptrTargetName : String → Option String

/-- `pgast.Relation` as used for the phantom value relation: a name plus its
`path_outputs` mapping. -/
structure Relation where
  rname : String
  pathOutputs : List ((PathId × String) × PgExpr)

/-- `ctx.alias_generator`: successive calls yield fresh names. -/
structure AliasGen where
  counter : Nat
deriving DecidableEq, Repr

def AliasGen.get (g : AliasGen) (hint : String) : String × AliasGen :=
  (hint ++ "~" ++ toString g.counter, AliasGen.mk (g.counter + 1))

/-- `context.CompiledDML`. -/
structure CompiledDML where
  valueCteName : String
  valueRelationInput : Query
  valueColumns : List (String × Bool)
  valueIteratorName : String
  outputCtes : List Cte
  outputRelationName : String
  outputNamespace : List (String × PgExpr)

/-- `PreprocessedDML` (the dataclass of `command.py`).  `inputId` is the
identity of the input statement node, the key under which the compiled
result is later stored. -/
structure PreprocessedDML where
  inputId : Nat
  qlStmt : QlExpr
  qlReturningShape : List QlShapeElement
  qlSingletons : List PathId
  qlAnchors : List (String × PathId)
  externalRels : List (PathId × Relation × List String)
  subjectColumns : List (String × String)
  earlyResult : CompiledDML

/-- `_has_at_most_one_row`: the row source is a `SelectStmt` that either is
a one-row `VALUES` list or carries `LIMIT` with the numeric constant `'1'`. -/
def hasAtMostOneRow : Option Query → Bool
  | some (.selectStmt _ _ values lim _) =>
    (values.length == 1) ||
    (match lim with
     | some (.numericConstant v) => v == "1"
     | _ => false)
  | _ => false

/-- `_get_pointer_for_column`: `source`/`target` on a pointer subject map to
themselves; otherwise a `_id` suffix marks a link (suffix stripped); the
pointer must exist (assertion) and the subject must not be a property
(assertion). -/
def getPointerForColumn (col : Column) (sub : SubjectInfo) :
    Except Err (String × Bool) :=
  if (sub.kind = .link ∨ sub.kind = .property) ∧
      (col.name = "source" ∨ col.name = "target") then
    .ok (col.name, false)
  else if sub.kind = .property then
    .error (.assertionFailure "subject must not be a Property here")
  else
    let pn := if col.name.endsWith "_id" then (col.name.dropRight 3, true)
      else (col.name, false)
    if sub.hasPtr pn.1 then .ok pn
    else .error (.assertionFailure "no pointer for column")

/-- `_construct_insert_element_for_ptr`: the assignment shape element for one
pointer; links additionally step into `.id` and cast to the link's target
type (whose name must exist — assertion). -/
def constructInsertElementForPtr (sourceQl : QlPathElem) (ptrName : String)
    (ptrTarget : Option String) (isLink : Bool) : Except Err QlShapeElement :=
  if isLink then
    match ptrTarget with
    | none => .error (.assertionFailure "link pointer has no target")
    | some tn =>
      .ok (QlShapeElement.mk (.pathExpr [.ptr ptrName none] false)
        (some ShapeOp.assign)
        (some (.typeCastQl tn
          (.pathExpr [sourceQl, .ptr ptrName none, .ptr "id" none] false))))
  else
    .ok (QlShapeElement.mk (.pathExpr [.ptr ptrName none] false)
      (some ShapeOp.assign)
      (some (.pathExpr [sourceQl, .ptr ptrName none] false)))

/-- The expected-column loop of `_preprocess_insert_object_stmt`: collects
`value_columns`, the phantom relation's path outputs and the insert shape. -/
def objColumnsLoop (sub : SubjectInfo) (valueId : PathId) (valueQl : QlPathElem) :
    List Column →
    Except Err (List (String × Bool) × List ((PathId × String) × PgExpr) ×
      List QlShapeElement)
  | [] => .ok ([], [], [])
  | col :: rest =>
    match getPointerForColumn col sub with
    | .error e => .error e
    | .ok pn =>
      let ptrId := valueId.extendP pn.1
      let outputVar := PgExpr.columnRef [pn.1] true
      let pouts := if pn.2 then
          [((ptrId, "identity"), outputVar), ((ptrId, "value"), outputVar)]
        else [((ptrId, "value"), outputVar)]
      match constructInsertElementForPtr valueQl pn.1 (sub.ptrTargetName pn.1) pn.2 with
      | .error e => .error e
      | .ok el =>
        match objColumnsLoop sub valueId valueQl rest with
        | .error e => .error e
        | .ok acc => .ok ((pn.1, pn.2) :: acc.1, pouts ++ acc.2.1, el :: acc.2.2)

/-- The returning-shape loop shared by both preprocessors for object
subjects: one bare shape element per non-hidden column. -/
def objReturningShape (sub : SubjectInfo) (subTable : Table) :
    Except Err (List QlShapeElement) :=
  exceptMapM (fun c =>
    match getPointerForColumn c sub with
    | .error e => .error e
    | .ok pn => .ok (QlShapeElement.mk (.pathExpr [.ptr pn.1 none] false) none none))
    (subTable.columns.filter (fun c => !c.hidden))

/-- `_preprocess_insert_object_stmt`. -/
def preprocessInsertObjectStmt (stmtId : Nat) (stmtSelect : Option Query)
    (stmtCtes : List Cte) (hasReturning : Bool) (sub : SubjectInfo)
    (subTable : Table) (expectedColumns0 : List Column) (g : AliasGen) :
    Except Err (PreprocessedDML × AliasGen) :=
  match preprocessInsertValue stmtSelect stmtCtes expectedColumns0 with
  | .error e => .error e
  | .ok vr =>
    let valueRelation := vr.1
    let expectedColumns := vr.2
    let isValueSingle := hasAtMostOneRow stmtSelect
    let g1 := g.get "ins_val"
    let valueName := g1.1
    let g2 := g1.2.get "ins_iter"
    let iteratorName := g2.1
    let valueId := PathId.fromType valueName
    let valueQl : QlPathElem :=
      if isValueSingle then .irAnchor valueName else .objectRef iteratorName
    let g3 := g2.2.get "ins_value"
    let valueCteName := g3.1
    match objColumnsLoop sub valueId valueQl expectedColumns with
    | .error e => .error e
    | .ok acc =>
      let valueColumns := acc.1
      let insertShape := acc.2.2
      let g4 := g3.2.get "iter"
      let valueIterator := g4.1
      let iterVar := PgExpr.columnRef [valueIterator] false
      let valuePouts := acc.2.1 ++
        [((valueId, "iterator"), iterVar), ((valueId, "value"), iterVar)]
      let valueRel : Relation := Relation.mk valueCteName valuePouts
      let qlStmt0 : QlExpr := .insertQuery sub.name insertShape
      let qlStmt := if ¬ isValueSingle then
          QlExpr.forQuery (.pathExpr [.irAnchor valueName] false) iteratorName qlStmt0
        else qlStmt0
      match (if hasReturning then objReturningShape sub subTable else .ok []) with
      | .error e => .error e
      | .ok qlReturningShape =>
        .ok (PreprocessedDML.mk stmtId qlStmt qlReturningShape [valueId]
          [(valueName, valueId)] [(valueId, valueRel, ["source", "identity"])] []
          (CompiledDML.mk valueCteName valueRelation valueColumns valueIterator
            [] "" []),
          g4.2)

/-- The expected-column loop of `_preprocess_insert_pointer_stmt`:
`source`/`target` get their fixed treatment, other columns must be link
properties (assertions otherwise). -/
def ptrColumnsLoop (sub : SubjectInfo) (sourceId valueId : PathId) :
    List Column →
    Except Err (List (String × Bool) × List ((PathId × String) × PgExpr))
  | [] => .ok ([], [])
  | col :: rest =>
    let step : Except Err ((String × Bool) × List ((PathId × String) × PgExpr)) :=
      if col.name = "source" then
        let var := PgExpr.columnRef ["source"] true
        .ok (("source", true),
          [((sourceId, "value"), var), ((sourceId, "identity"), var)])
      else if col.name = "target" then
        let isLink := sub.kind = SubjectKind.link
        let ptrId := valueId.tgtPath
        let var := PgExpr.columnRef ["target"] true
        .ok (("target", isLink),
          [((ptrId, "value"), var), ((ptrId, "identity"), var)])
      else
        if sub.kind ≠ SubjectKind.link then
          .error (.assertionFailure "extra column on a non-link subject")
        else if ¬ sub.hasPtr col.name then
          .error (.assertionFailure "no link property for column")
        else
          let ptrId := (valueId.ptrPath).extendP col.name
          let var := PgExpr.columnRef [col.name] true
          .ok ((col.name, false), [((ptrId, "value"), var)])
    match step with
    | .error e => .error e
    | .ok s =>
      match ptrColumnsLoop sub sourceId valueId rest with
      | .error e => .error e
      | .ok acc => .ok (s.1 :: acc.1, s.2 ++ acc.2)

/-- `_preprocess_insert_pointer_stmt`. -/
def preprocessInsertPointerStmt (stmtId : Nat) (stmtSelect : Option Query)
    (stmtCtes : List Cte) (hasReturning : Bool) (sub : SubjectInfo)
    (subTable : Table) (expectedColumns0 : List Column) (g : AliasGen) :
    Except Err (PreprocessedDML × AliasGen) :=
  if ¬ expectedColumns0.any (fun c => c.name == "source") then
    .error (.queryError
      "column source is required when inserting into link tables" none)
  else if ¬ expectedColumns0.any (fun c => c.name == "target") then
    .error (.queryError
      "column target is required when inserting into link tables" none)
  else
    match sub.sourceName, sub.targetName with
    | none, _ => .error (.assertionFailure "link subject has no source")
    | _, none => .error (.assertionFailure "link subject has no target")
    | some subSourceName, some subTargetName =>
      if ¬ sub.sourceIsObjectType then
        .error (.assertionFailure "link source is not an object type")
      else
        match preprocessInsertValue stmtSelect stmtCtes expectedColumns0 with
        | .error e => .error e
        | .ok vr =>
          let valueRelation := vr.1
          let expectedColumns := vr.2
          let isValueSingle := hasAtMostOneRow stmtSelect
          let g1 := g.get "ins_val"
          let valueName := g1.1
          let g2 := g1.2.get "ins_iter"
          let iteratorName := g2.1
          let sourceId := PathId.fromType valueName
          let valueId := sourceId.extendP sub.name
          let valueQl : QlPathElem :=
            if isValueSingle then .irAnchor valueName else .objectRef iteratorName
          let g3 := g2.2.get "ins_value"
          let valueCteName := g3.1
          match ptrColumnsLoop sub sourceId valueId expectedColumns with
          | .error e => .error e
          | .ok acc =>
            let valueColumns := acc.1
            let g4 := g3.2.get "iter"
            let valueIterator := g4.1
            let iterVar := PgExpr.columnRef [valueIterator] false
            let valuePouts := acc.2 ++
              [((sourceId, "iterator"), iterVar), ((valueId, "iterator"), iterVar)]
            let valueRel : Relation := Relation.mk valueCteName valuePouts
            let qlPtrVal : QlExpr :=
              if sub.kind = SubjectKind.link then
                QlExpr.shapeExpr
                  (some (.typeCastQl subTargetName
                    (.pathExpr [valueQl, .ptr sub.shortName none] false)))
                  ((valueColumns.filter
                      (fun pc => pc.1 ≠ "source" ∧ pc.1 ≠ "target")).map
                    (fun pc => QlShapeElement.mk
                      (.pathExpr [.ptr pc.1 (some "property")] false) none
                      (some (.pathExpr
                        [valueQl, .ptr sub.shortName none,
                          .ptr pc.1 (some "property")] false))))
              else
                QlExpr.pathExpr [valueQl, .ptr sub.shortName none] false
            let qlStmt0 : QlExpr := QlExpr.updateQuery
              (.pathExpr [.objectRef subSourceName] false)
              (QlExpr.binOp (.pathExpr [.objectRef subSourceName] false) "="
                (.pathExpr [valueQl] false))
              [QlShapeElement.mk (.pathExpr [.ptr sub.shortName none] false)
                (some (if sub.cardinalityMany then ShapeOp.append else ShapeOp.assign))
                (some qlPtrVal)]
            let qlStmt := if ¬ isValueSingle then
                QlExpr.forQuery (.pathExpr [.irAnchor valueName] false)
                  iteratorName qlStmt0
              else qlStmt0
            let qlReturningShape :=
              if hasReturning then
                (subTable.columns.filter (fun c =>
                    !c.hidden && c.name ≠ "source" && c.name ≠ "target")).map
                  (fun c => QlShapeElement.mk
                    (.pathExpr [.ptr c.name none] false) none
                    (some (.pathExpr
                      [.ptr sub.shortName none, .ptr c.name (some "property")] true)))
              else []
            .ok (PreprocessedDML.mk stmtId qlStmt qlReturningShape [sourceId]
              [(valueName, sourceId)] [(sourceId, valueRel, ["source", "identity"])] []
              (CompiledDML.mk valueCteName valueRelation valueColumns valueIterator
                [] "" []),
              g4.2)

/-- The subject-column loop appended by `_preprocess_insert_stmt` when the
statement has a `RETURNING` clause. -/
def subjectColumnsOf (sub : SubjectInfo) (subTable : Table) :
    Except Err (List (String × String)) :=
  exceptMapM (fun c =>
    match getPointerForColumn c sub with
    | .error e => .error e
    | .ok pn => .ok (c.name, pn.1)) (subTable.columns.filter (fun c => !c.hidden))

/-- `_preprocess_insert_stmt`: resolve the subject relation (via the external
resolver, passed in as `resolveSubject`), pull the expected columns, dispatch
on the subject kind, and append the subject columns when `RETURNING` is
present. -/
def preprocessInsertStmt
    (resolveSubject : String → Except Err (Table × SubjectInfo))
    (stmt : Query) (g : AliasGen) : Except Err (PreprocessedDML × AliasGen) :=
  match stmt with
  | .insertStmt d =>
    match resolveSubject d.relName with
    | .error e => .error e
    | .ok ts =>
      let subTable := ts.1
      let sub := ts.2
      match pullColumnsFromTable subTable
          (if d.cols ≠ [] then some d.cols else none) with
      | .error e => .error e
      | .ok expectedColumns =>
        let dispatched : Except Err (PreprocessedDML × AliasGen) :=
          match sub.kind with
          | .objectType => preprocessInsertObjectStmt d.id d.selectStmt d.ctes
              (!d.returningList.isEmpty) sub subTable expectedColumns g
          | .link => preprocessInsertPointerStmt d.id d.selectStmt d.ctes
              (!d.returningList.isEmpty) sub subTable expectedColumns g
          | .property => preprocessInsertPointerStmt d.id d.selectStmt d.ctes
              (!d.returningList.isEmpty) sub subTable expectedColumns g
          | .otherObject => .error .notImplemented
        match dispatched with
        | .error e => .error e
        | .ok rg =>
          if d.returningList.isEmpty then .ok rg
          else
            match subjectColumnsOf sub subTable with
            | .error e => .error e
            | .ok subjCols =>
              .ok ({ rg.1 with subjectColumns := rg.1.subjectColumns ++ subjCols },
                rg.2)
  | _ => .error (.assertionFailure "not an InsertStmt")

/-- `_collect_dml_stmts`: the `InsertStmt` queries of the top-level query's
immediate CTEs, in order, followed by the top-level statement itself when it
is an `InsertStmt`. -/
def collectDmlStmts (stmt : Query) : List Query :=
  (stmt.getCtes.filterMap (fun c =>
    match c.query with
    | .insertStmt d => some (Query.insertStmt d)
    | _ => none)) ++
  (match stmt with
   | .insertStmt _ => [stmt]
   | _ => [])

/-- The statement-node identity an `InsertStmt` is keyed by. -/
def insertIdOf : Query → Option Nat
  | .insertStmt d => some d.id
  | _ => none

lemma hasAtMostOneRow_iff (q : Option Query) :
    hasAtMostOneRow q = true ↔
      ∃ tl fc values lim cs, q = some (Query.selectStmt tl fc values lim cs) ∧
        (values.length = 1 ∨ lim = some (PgExpr.numericConstant "1")) := by
  constructor
  · intro h
    cases q with
    | none => exact absurd h (by simp [hasAtMostOneRow])
    | some v =>
      cases v with
      | insertStmt d => exact absurd h (by simp [hasAtMostOneRow])
      | otherQuery t c po => exact absurd h (by simp [hasAtMostOneRow])
      | selectStmt tl fc values lim cs =>
        refine ⟨tl, fc, values, lim, cs, rfl, ?_⟩
        simp only [hasAtMostOneRow, Bool.or_eq_true, beq_iff_eq] at h
        rcases h with h1 | h2
        · exact Or.inl h1
        · cases lim with
          | none => exact absurd h2 (by simp)
          | some e =>
            cases e with
            | numericConstant v =>
              right
              have hv : v = "1" := by simpa using h2
              rw [hv]
            | columnRef a b => exact absurd h2 (by simp)
            | nullConstant => exact absurd h2 (by simp)
            | keyword a => exact absurd h2 (by simp)
            | implicitRowExpr a => exact absurd h2 (by simp)
            | typeCast a b => exact absurd h2 (by simp)
            | funcCall a b c2 => exact absurd h2 (by simp)
            | paramExpr a => exact absurd h2 (by simp)
  · rintro ⟨tl, fc, values, lim, cs, rfl, h⟩
    simp only [hasAtMostOneRow, Bool.or_eq_true, beq_iff_eq]
    rcases h with h1 | h2
    · exact Or.inl h1
    · subst h2
      right
      simp

/-- C4: whenever the object-type preprocessor succeeds, its synthetic
statement carries the for-each iteration wrapper exactly when the value
source is not single-row — single-row meaning the row source is a
`SelectStmt` that is literally a one-row `VALUES` list or has a `LIMIT`
clause whose count is the numeric constant `1`. -/
theorem object_insert_iteration_wrapper
    (stmtId : Nat) (stmtSelect : Option Query) (stmtCtes : List Cte)
    (hasReturning : Bool) (sub : SubjectInfo) (subTable : Table)
    (ecols : List Column) (g g2 : AliasGen) (res : PreprocessedDML)
    (h : preprocessInsertObjectStmt stmtId stmtSelect stmtCtes hasReturning sub
      subTable ecols g = .ok (res, g2)) :
    res.qlStmt.isForQuery = true ↔
      ¬ (∃ tl fc values lim cs,
        stmtSelect = some (Query.selectStmt tl fc values lim cs) ∧
        (values.length = 1 ∨ lim = some (PgExpr.numericConstant "1"))) := by
  simp only [preprocessInsertObjectStmt] at h
  split at h
  · exact absurd h (by simp)
  · split at h
    · exact absurd h (by simp)
    · split at h
      · exact absurd h (by simp)
      · injection h with h1
        injection h1 with hres hg
        subst hres
        rw [← hasAtMostOneRow_iff]
        by_cases hs : hasAtMostOneRow stmtSelect = true
        · simp [hs, QlExpr.isForQuery]
        · have hs2 : hasAtMostOneRow stmtSelect = false := by
            cases hb : hasAtMostOneRow stmtSelect
            · rfl
            · exact absurd hb hs
          simp [hs2, QlExpr.isForQuery]

/-- Witness for the C4 theorem: a concrete single-row `VALUES (NULL)` insert
into an object-type table preprocesses successfully and satisfies the
wrapper iff. -/
theorem object_insert_iteration_wrapper_witness :
    ∃ res g2,
      preprocessInsertObjectStmt 1
          (some (Query.selectStmt [] [] [PgExpr.implicitRowExpr [PgExpr.nullConstant]]
            none []))
          [] false
          (SubjectInfo.mk SubjectKind.objectType "default::T" "T" none false none
            false (fun _ => true) (fun _ => none))
          (Table.mk [Column.mk "a" false 0]) [Column.mk "a" false 0]
          (AliasGen.mk 0) =
        .ok (res, g2) ∧
      res.qlStmt.isForQuery = false := by
  obtain ⟨rg, hp⟩ : ∃ rg,
      preprocessInsertObjectStmt 1
          (some (Query.selectStmt [] [] [PgExpr.implicitRowExpr [PgExpr.nullConstant]]
            none []))
          [] false
          (SubjectInfo.mk SubjectKind.objectType "default::T" "T" none false none
            false (fun _ => true) (fun _ => none))
          (Table.mk [Column.mk "a" false 0]) [Column.mk "a" false 0]
          (AliasGen.mk 0) =
        .ok rg :=
    ⟨_, rfl⟩
  refine ⟨rg.1, rg.2, hp, ?_⟩
  have hiff := object_insert_iteration_wrapper 1
    (some (Query.selectStmt [] [] [PgExpr.implicitRowExpr [PgExpr.nullConstant]]
      none []))
    [] false
    (SubjectInfo.mk SubjectKind.objectType "default::T" "T" none false none
      false (fun _ => true) (fun _ => none))
    (Table.mk [Column.mk "a" false 0]) [Column.mk "a" false 0]
    (AliasGen.mk 0) rg.2 rg.1 hp
  have hcond : ∃ tl fc values lim cs,
      (some (Query.selectStmt [] [] [PgExpr.implicitRowExpr [PgExpr.nullConstant]]
        none []) : Option Query) = some (Query.selectStmt tl fc values lim cs) ∧
      (values.length = 1 ∨ lim = some (PgExpr.numericConstant "1")) :=
    ⟨[], [], [PgExpr.implicitRowExpr [PgExpr.nullConstant]], none, [], rfl, Or.inl rfl⟩
  cases hb : rg.1.qlStmt.isForQuery
  · rfl
  · exact absurd hcond (hiff.mp hb)

/-- The IR nodes `_merge_and_prepare_external_rels` descends through when it
looks for a statement's compiled mutating node: mutating statements (their
identity is the CTE marker), select and pointer wrappers, and anything
else (which raises `NotImplementedError`). -/
inductive IrNode where
  | mutating (id : Nat)
  | selectWrap (inner : IrNode)
  | pointerWrap (source : IrNode)
  | otherIr
deriving DecidableEq, Repr

/-- The descent loop of `_merge_and_prepare_external_rels`: unwrap select
and pointer wrappers until a mutating statement appears. -/
def findMutating : IrNode → Except Err Nat
  | .mutating i => .ok i
  | .selectWrap e => findMutating e
  | .pointerWrap e => findMutating e
  | .otherIr => .error .notImplemented

/-- What the external compiler hands back for the single batched call: the
compiled result's top-level shape (binding name to IR node) and the emitted
CTE list. -/
structure CompilerOutput where
  irShape : List (String × IrNode)
  ctes : List Cte

/-- The names `dml_0`, `dml_1`, … invented for the per-statement bindings. -/
def dmlNames (k : Nat) : List String :=
  (List.range k).map (fun i => "dml_" ++ toString i)

/-- The merged synthetic statement of `_compile_preprocessed_dml`: one
detached alias and one shape element per DML statement. -/
def buildMergedQl (stmts : List PreprocessedDML) : QlExpr :=
  let names := dmlNames stmts.length
  QlExpr.selectQuery
    ((names.zip stmts).map (fun p => (p.1, QlExpr.detachedExpr p.2.qlStmt)))
    (QlExpr.shapeExpr none
      ((names.zip stmts).map (fun p => QlShapeElement.mk
        (.pathExpr [.ptr p.1 none] false) none
        (some (QlExpr.shapeExpr
          (some (.pathExpr [.objectRef p.1] false))
          p.2.qlReturningShape)))))

/-- The singleton/anchor merging at the head of `_compile_preprocessed_dml`. -/
def mergedSingletons (stmts : List PreprocessedDML) : List PathId :=
  stmts.foldl (fun acc s => acc ++ s.qlSingletons) []

def mergedAnchors (stmts : List PreprocessedDML) : List (String × PathId) :=
  stmts.foldl (fun acc s => acc ++ s.qlAnchors) []

/-- `_merge_and_prepare_external_rels`, reduced to what later stages read:
one compiled mutating-node identity per statement, located by looking up the
statement's invented name in the compiled shape (`KeyError` if absent) and
descending to a mutating node.  Namespace rewriting of the external
relations only affects the compiler input and is not needed by any property
proved here. -/
def irStmtsOf (irShape : List (String × IrNode)) (stmts : List PreprocessedDML)
    (names : List String) : Except Err (List Nat) :=
  exceptMapM (fun p =>
    match (irShape.reverse.find? (fun e => e.1 == p.1)) with
    | none => .error .keyError
    | some e => findMutating e.2) (names.zip stmts)

/-- One turn of the result loop of `_compile_preprocessed_dml`: claim the
statement's CTE run, read the last CTE's path outputs (IndexError when the
run is empty), and build the post-compile `CompiledDML`. -/
def processOneStmt (st : PreprocessedDML) (m : Nat) (ctes : List Cte) :
    Except Err (CompiledDML × List Cte) :=
  let gr := takeGroup m false ctes
  match gr.1.getLast? with
  | none => .error (.assertionFailure "IndexError: stmt_ctes is empty")
  | some lastCte =>
    match buildOutputNamespace st.subjectColumns
        (buildPtrMap lastCte.query.pathOutputs) with
    | .error e => .error e
    | .ok ons =>
      .ok (CompiledDML.mk st.earlyResult.valueCteName
        st.earlyResult.valueRelationInput st.earlyResult.valueColumns
        st.earlyResult.valueIteratorName gr.1 lastCte.cname ons, gr.2)

/-- The full result loop: one `CompiledDML` entry per statement, keyed by
the input node's identity, plus the leftover CTE list. -/
def processStmts : List (PreprocessedDML × Nat) → List Cte →
    Except Err (List (Nat × CompiledDML) × List Cte)
  | [], ctes => .ok ([], ctes)
  | (st, m) :: rest, ctes =>
    match processOneStmt st m ctes with
    | .error e => .error e
    | .ok cd =>
      match processStmts rest cd.2 with
      | .error e => .error e
      | .ok acc => .ok ((st.inputId, cd.1) :: acc.1, acc.2)

/-- `_compile_preprocessed_dml`: merge, compile once through the external
compiler (`compiler` covers the object-query and IR-to-SQL compilers; a
query error raised inside the call is re-classified as a data exception),
require a non-empty CTE list (assertion), locate each statement's mutating
node, and partition the CTE list. -/
def compilePreprocessedDml
    (compiler : QlExpr → List PathId → List (String × PathId) →
      Except Err CompilerOutput)
    (stmts : List PreprocessedDML) :
    Except Err (List (Nat × CompiledDML) × List Cte) :=
  let singletons := mergedSingletons stmts
  let anchors := mergedAnchors stmts
  let qlStmt := buildMergedQl stmts
  let names := dmlNames stmts.length
  let compiled : Except Err (CompilerOutput × List Nat) :=
    match compiler qlStmt singletons anchors with
    | .error e => .error e
    | .ok out =>
      match irStmtsOf out.irShape stmts names with
      | .error e => .error e
      | .ok irs => .ok (out, irs)
  match compiled with
  | .error (.queryError msg _) => .error (.queryError msg (some .dataException))
  | .error e => .error e
  | .ok oi =>
    if oi.1.ctes.isEmpty then
      .error (.assertionFailure "compiled output has no CTEs")
    else processStmts (stmts.zip oi.2) oi.1.ctes

/-- The preprocessing loop of `compile_dml`, threading the alias generator. -/
def preprocessAll (resolveSubject : String → Except Err (Table × SubjectInfo)) :
    List Query → AliasGen → Except Err (List PreprocessedDML × AliasGen)
  | [], g => .ok ([], g)
  | s :: rest, g =>
    match preprocessInsertStmt resolveSubject s g with
    | .error e => .error e
    | .ok pg =>
      match preprocessAll resolveSubject rest pg.2 with
      | .error e => .error e
      | .ok acc => .ok (pg.1 :: acc.1, acc.2)

/-- `compile_dml`: collect the DML statements, preprocess them all, compile
the batch once, and return the per-statement `CompiledDML` mapping together
with the leftover CTEs. -/
def compileDml (resolveSubject : String → Except Err (Table × SubjectInfo))
    (compiler : QlExpr → List PathId → List (String × PathId) →
      Except Err CompilerOutput)
    (stmt : Query) (g : AliasGen) :
    Except Err (List (Nat × CompiledDML) × List Cte) :=
  let dmlStmtsSql := collectDmlStmts stmt
  if dmlStmtsSql.isEmpty then .ok ([], [])
  else
    match preprocessAll resolveSubject dmlStmtsSql g with
    | .error e => .error e
    | .ok sg => compilePreprocessedDml compiler sg.1

/-- C5: inserting into a link/property table whose expected columns lack
`source` (resp. lack `target`) fails, in preprocessing, with a query error
naming the missing column — and because `compile_dml` preprocesses every
statement before its single compiler invocation, the same error is the
outcome of `compile_dml` for *every* compiler, i.e. before the external
object-query compiler is ever consulted. -/
theorem pointer_insert_requires_source_target
    (stmtId : Nat) (stmtSelect : Option Query) (stmtCtes : List Cte)
    (hasReturning : Bool) (sub : SubjectInfo) (subTable : Table)
    (ecols : List Column) (g : AliasGen) :
    ((∀ c ∈ ecols, c.name ≠ "source") →
      preprocessInsertPointerStmt stmtId stmtSelect stmtCtes hasReturning sub
        subTable ecols g =
      .error (.queryError
        "column source is required when inserting into link tables" none)) ∧
    ((∃ c ∈ ecols, c.name = "source") → (∀ c ∈ ecols, c.name ≠ "target") →
      preprocessInsertPointerStmt stmtId stmtSelect stmtCtes hasReturning sub
        subTable ecols g =
      .error (.queryError
        "column target is required when inserting into link tables" none)) ∧
    (∀ (resolveSubject : String → Except Err (Table × SubjectInfo))
       (compiler : QlExpr → List PathId → List (String × PathId) →
         Except Err CompilerOutput)
       (d : InsertData),
      d.ctes = [] →
      resolveSubject d.relName = .ok (subTable, sub) →
      (sub.kind = SubjectKind.link ∨ sub.kind = SubjectKind.property) →
      pullColumnsFromTable subTable (if d.cols ≠ [] then some d.cols else none) =
        .ok ecols →
      (∀ c ∈ ecols, c.name ≠ "source") →
      compileDml resolveSubject compiler (Query.insertStmt d) g =
        .error (.queryError
          "column source is required when inserting into link tables" none)) := by
  have herr : ∀ (sid : Nat) (sel : Option Query) (cts : List Cte) (hb : Bool)
      (ga : AliasGen), (∀ c ∈ ecols, c.name ≠ "source") →
      preprocessInsertPointerStmt sid sel cts hb sub subTable ecols ga =
      .error (.queryError
        "column source is required when inserting into link tables" none) := by
    intro sid sel cts hb ga hno
    have hs : ecols.any (fun c => c.name == "source") = false := by
      rw [List.any_eq_false]
      intro c hc
      simp [hno c hc]
    unfold preprocessInsertPointerStmt
    rw [if_pos (by rw [hs]; simp)]
  refine ⟨herr stmtId stmtSelect stmtCtes hasReturning g, ?_, ?_⟩
  · rintro ⟨c0, hc0, hc0s⟩ hno
    have hsrc : ecols.any (fun c => c.name == "source") = true := by
      rw [List.any_eq_true]
      exact ⟨c0, hc0, by simp [hc0s]⟩
    have htgt : ecols.any (fun c => c.name == "target") = false := by
      rw [List.any_eq_false]
      intro c hc
      simp [hno c hc]
    unfold preprocessInsertPointerStmt
    rw [if_neg (by rw [hsrc]; simp), if_pos (by rw [htgt]; simp)]
  · intro resolveSubject compiler d hctes hres hkind hpull hno
    have hcollect : collectDmlStmts (Query.insertStmt d) = [Query.insertStmt d] := by
      cases d with
      | mk i r a cs s c ret =>
        simp only [InsertData.ctes] at hctes
        subst hctes
        rfl
    have hpre : preprocessInsertStmt resolveSubject (Query.insertStmt d) g =
        .error (.queryError
          "column source is required when inserting into link tables" none) := by
      rcases hkind with hk | hk
      · simp only [preprocessInsertStmt, hres, hpull, hk,
          herr d.id d.selectStmt d.ctes (!d.returningList.isEmpty) g hno]
      · simp only [preprocessInsertStmt, hres, hpull, hk,
          herr d.id d.selectStmt d.ctes (!d.returningList.isEmpty) g hno]
    unfold compileDml
    rw [hcollect]
    simp only [List.isEmpty_cons, Bool.false_eq_true, if_false, preprocessAll, hpre]

/-- Witness for the C5 theorem: a link table exposing only `target` and
`role` errors on the missing `source` column, both directly in the
preprocessor and through `compile_dml` under an arbitrary compiler. -/
theorem pointer_insert_requires_source_target_witness :
    preprocessInsertPointerStmt 9 none [] false
        (SubjectInfo.mk SubjectKind.link "default::L" "l" (some "default::S") true
          (some "default::T2") true (fun _ => false) (fun _ => none))
        (Table.mk [Column.mk "target" false 0, Column.mk "role" false 0])
        [Column.mk "target" false 0, Column.mk "role" false 0] (AliasGen.mk 0) =
      .error (.queryError
        "column source is required when inserting into link tables" none) ∧
    compileDml
        (fun _ => .ok (Table.mk [Column.mk "target" false 0, Column.mk "role" false 0],
          SubjectInfo.mk SubjectKind.link "default::L" "l" (some "default::S") true
            (some "default::T2") true (fun _ => false) (fun _ => none)))
        (fun _ _ _ => .ok (CompilerOutput.mk [] []))
        (Query.insertStmt (InsertData.mk 9 "L" none [] none [] [])) (AliasGen.mk 0) =
      .error (.queryError
        "column source is required when inserting into link tables" none) := by
  constructor
  · exact (pointer_insert_requires_source_target 9 none [] false
      (SubjectInfo.mk SubjectKind.link "default::L" "l" (some "default::S") true
        (some "default::T2") true (fun _ => false) (fun _ => none))
      (Table.mk [Column.mk "target" false 0, Column.mk "role" false 0])
      [Column.mk "target" false 0, Column.mk "role" false 0] (AliasGen.mk 0)).1
      (by decide)
  · exact (pointer_insert_requires_source_target 9 none [] false
      (SubjectInfo.mk SubjectKind.link "default::L" "l" (some "default::S") true
        (some "default::T2") true (fun _ => false) (fun _ => none))
      (Table.mk [Column.mk "target" false 0, Column.mk "role" false 0])
      [Column.mk "target" false 0, Column.mk "role" false 0] (AliasGen.mk 0)).2.2
      (fun _ => .ok (Table.mk [Column.mk "target" false 0, Column.mk "role" false 0],
        SubjectInfo.mk SubjectKind.link "default::L" "l" (some "default::S") true
          (some "default::T2") true (fun _ => false) (fun _ => none)))
      (fun _ _ _ => .ok (CompilerOutput.mk [] []))
      (InsertData.mk 9 "L" none [] none [] [])
      rfl rfl (Or.inl rfl) (by decide) (by decide)

/-- The mutable resolution state threaded through `resolve_InsertStmt`:
`WITH`-nesting depth, the CTE buffer and the alias generator. -/
structure ResolveCtx where
  subqueryDepth : Int
  ctesBuffer : List Cte
  gen : AliasGen

/-- Modelled from the spec: `pg_res_rel.extract_ctes_from_ctx` lives in
`relation.py`, which is not among the sources under study.  Per §4.6 the
resolver "finally attach[es] whatever CTEs are currently buffered in the
resolution context", so the model yields the buffer and clears it. -/
def extractCtesFromCtx (ctx : ResolveCtx) : List Cte × ResolveCtx :=
  (ctx.ctesBuffer, ResolveCtx.mk ctx.subqueryDepth [] ctx.gen)

/-- `_resolve_returning_rows`: project the output namespace over the output
relation under a fresh alias and resolve each `RETURNING` target against it
(per-target resolution is the external `resolve_ResTarget`, passed in as
`resTargetRes`). -/
def resolveReturningRows
    (resTargetRes : ResTarget → Except Err (List ResTarget × List Column))
    (returningList : List ResTarget) (outputRelationName : String)
    (outputNamespace : List (String × PgExpr)) (_subjectAlias : Option String)
    (g : AliasGen) : Except Err (Query × Table × AliasGen) :=
  let g1 := g.get "ins"
  let insertedRvarName := g1.1
  let insertedQuery := Query.selectStmt
    (outputNamespace.map (fun p => ResTarget.mk (some p.1) p.2))
    [FromItem.relRangeVar outputRelationName none] [] none []
  match exceptMapM resTargetRes returningList with
  | .error e => .error e
  | .ok resolved =>
    .ok (Query.selectStmt ((resolved.map (fun p => p.1)).flatten)
        [FromItem.rangeSubselect insertedQuery (some insertedRvarName)] [] none [],
      Table.mk ((resolved.map (fun p => p.2)).flatten), g1.2)

/-- The body of `resolve_InsertStmt` after the nesting-depth gate: look up
the `CompiledDML` (`KeyError` when absent), resolve the value relation
(external, `resolveRel`), check the column count, project the value columns
with their uuid casts (`colKindRes` is the external `resolve_column_kind`)
plus the freshly named iterator column, wrap it all in the value CTE,
buffer it together with the compiled output CTEs, build the `RETURNING`
projection or the `COUNT(*)`/empty fallback, and attach the buffered CTEs. -/
def resolveInsertBody
    (lookupDml : Nat → Option CompiledDML)
    (resolveRel : Query → Except Err (Query × Table))
    (colKindRes : Column → PgExpr)
    (resTargetRes : ResTarget → Except Err (List ResTarget × List Column))
    (ctx : ResolveCtx) (d : InsertData) : Except Err (Query × Table × ResolveCtx) :=
  match lookupDml d.id with
  | none => .error .keyError
  | some cdml =>
    match resolveRel cdml.valueRelationInput with
    | .error e => .error e
    | .ok vt =>
      let valRel0 := vt.1
      let valTable := vt.2
      if cdml.valueColumns.length ≠ valTable.columns.length then
        .error (.queryError
          ("INSERT expected " ++ toString cdml.valueColumns.length ++
            " columns, but got " ++ toString valTable.columns.length ++
            " (expecting " ++
            String.intercalate ", " (cdml.valueColumns.map (fun p => p.1)) ++ ")")
          none)
      else
        let valueTargetList :=
          (valTable.columns.zip cdml.valueColumns).map (fun p =>
            ResTarget.mk (some p.2.1)
              (if p.2.2 then PgExpr.typeCast (colKindRes p.1) ["uuid"]
                else colKindRes p.1)) ++
          [ResTarget.mk (some cdml.valueIteratorName)
            (PgExpr.funcCall ["edgedb", "uuid_generate_v4"] [] false)]
        let lifted : Query × List Cte :=
          if valRel0.getCtes.isEmpty then (valRel0, [])
          else (valRel0.setCtes [], valRel0.getCtes)
        let valueCte := Cte.mk cdml.valueCteName none
          (Query.selectStmt valueTargetList
            [FromItem.rangeSubselect lifted.1 none] [] none [])
        let buf := ctx.ctesBuffer ++ lifted.2 ++ [valueCte] ++ cdml.outputCtes
        let step : Except Err (Query × Table × AliasGen) :=
          if d.returningList.isEmpty then
            if ctx.subqueryDepth = 0 then
              .ok (Query.selectStmt
                  [ResTarget.mk none (PgExpr.funcCall ["count"] [] true)]
                  [FromItem.relRangeVar cdml.outputRelationName none] [] none [],
                Table.mk [], ctx.gen)
            else .ok (Query.selectStmt [] [] [] none [], Table.mk [], ctx.gen)
          else
            resolveReturningRows resTargetRes d.returningList
              cdml.outputRelationName cdml.outputNamespace d.relAlias ctx.gen
        match step with
        | .error e => .error e
        | .ok r =>
          let ctx2 := ResolveCtx.mk ctx.subqueryDepth buf r.2.2
          let extracted := extractCtesFromCtx ctx2
          .ok (r.1.setCtes (r.1.getCtes ++ extracted.1), r.2.1, extracted.2)

/-- `resolve_InsertStmt`: the nesting-depth gate, then the body. -/
def resolveInsertStmt
    (lookupDml : Nat → Option CompiledDML)
    (resolveRel : Query → Except Err (Query × Table))
    (colKindRes : Column → PgExpr)
    (resTargetRes : ResTarget → Except Err (List ResTarget × List Column))
    (ctx : ResolveCtx) (d : InsertData) : Except Err (Query × Table × ResolveCtx) :=
  if 2 ≤ ctx.subqueryDepth then
    .error (.queryError
      "WITH clause containing a data-modifying statement must be at the top level"
      (some .featureNotSupported))
  else resolveInsertBody lookupDml resolveRel colKindRes resTargetRes ctx d

/-- C6: an `InsertStmt` resolved at `WITH`-nesting depth two or more is
rejected with the unsupported-feature query error — for every compiled-DML
mapping and every external oracle, i.e. before any `CompiledDML` lookup or
value-relation resolution is attempted — while at depths 0 and 1 the gate
does not fire and resolution proceeds to the body. -/
theorem insert_depth_gate
    (lookupDml : Nat → Option CompiledDML)
    (resolveRel : Query → Except Err (Query × Table))
    (colKindRes : Column → PgExpr)
    (resTargetRes : ResTarget → Except Err (List ResTarget × List Column))
    (ctx : ResolveCtx) (d : InsertData) :
    (2 ≤ ctx.subqueryDepth →
      resolveInsertStmt lookupDml resolveRel colKindRes resTargetRes ctx d =
        .error (.queryError
          "WITH clause containing a data-modifying statement must be at the top level"
          (some .featureNotSupported))) ∧
    (ctx.subqueryDepth = 0 ∨ ctx.subqueryDepth = 1 →
      resolveInsertStmt lookupDml resolveRel colKindRes resTargetRes ctx d =
        resolveInsertBody lookupDml resolveRel colKindRes resTargetRes ctx d) := by
  constructor
  · intro h2
    unfold resolveInsertStmt
    rw [if_pos h2]
  · intro h01
    unfold resolveInsertStmt
    rw [if_neg (by rcases h01 with h | h <;> omega)]

/-- Witness for the C6 theorem: the gate fires at depth 2 with an empty
compiled-DML mapping, and passes through to the body at depth 0. -/
theorem insert_depth_gate_witness :
    resolveInsertStmt (fun _ => none) (fun _ => .error Err.keyError)
        (fun _ => PgExpr.nullConstant) (fun _ => .error Err.keyError)
        (ResolveCtx.mk 2 [] (AliasGen.mk 0))
        (InsertData.mk 0 "t" none [] none [] []) =
      .error (.queryError
        "WITH clause containing a data-modifying statement must be at the top level"
        (some .featureNotSupported)) ∧
    resolveInsertStmt (fun _ => none) (fun _ => .error Err.keyError)
        (fun _ => PgExpr.nullConstant) (fun _ => .error Err.keyError)
        (ResolveCtx.mk 0 [] (AliasGen.mk 0))
        (InsertData.mk 0 "t" none [] none [] []) =
      resolveInsertBody (fun _ => none) (fun _ => .error Err.keyError)
        (fun _ => PgExpr.nullConstant) (fun _ => .error Err.keyError)
        (ResolveCtx.mk 0 [] (AliasGen.mk 0))
        (InsertData.mk 0 "t" none [] none [] []) := by
  constructor
  · exact (insert_depth_gate (fun _ => none) (fun _ => .error Err.keyError)
      (fun _ => PgExpr.nullConstant) (fun _ => .error Err.keyError)
      (ResolveCtx.mk 2 [] (AliasGen.mk 0))
      (InsertData.mk 0 "t" none [] none [] [])).1 (by decide)
  · exact (insert_depth_gate (fun _ => none) (fun _ => .error Err.keyError)
      (fun _ => PgExpr.nullConstant) (fun _ => .error Err.keyError)
      (ResolveCtx.mk 0 [] (AliasGen.mk 0))
      (InsertData.mk 0 "t" none [] none [] [])).2 (Or.inl rfl)

/-- C7: for a resolved `InsertStmt` with no `RETURNING` clause, the result
at true top level (depth 0) is a `SELECT` computing `COUNT(*)` over the
relation named by the compiled output-relation name, and at nested depth
(0 < depth < 2) it is an empty select; in both cases the CTEs buffered in
the context — here the incoming buffer, the value CTE and the compiled
output CTEs — are attached to the produced query and the buffer is left
empty. -/
theorem insert_no_returning_result
    (lookupDml : Nat → Option CompiledDML)
    (resolveRel : Query → Except Err (Query × Table))
    (colKindRes : Column → PgExpr)
    (resTargetRes : ResTarget → Except Err (List ResTarget × List Column))
    (ctx : ResolveCtx) (d : InsertData) (cdml : CompiledDML)
    (valRel : Query) (valTable : Table)
    (hret : d.returningList = [])
    (hlk : lookupDml d.id = some cdml)
    (hres : resolveRel cdml.valueRelationInput = .ok (valRel, valTable))
    (hlen : cdml.valueColumns.length = valTable.columns.length)
    (hvc : valRel.getCtes = []) :
    (ctx.subqueryDepth = 0 →
      resolveInsertStmt lookupDml resolveRel colKindRes resTargetRes ctx d =
        .ok (Query.selectStmt
            [ResTarget.mk none (PgExpr.funcCall ["count"] [] true)]
            [FromItem.relRangeVar cdml.outputRelationName none] [] none
            (ctx.ctesBuffer ++
              [Cte.mk cdml.valueCteName none
                (Query.selectStmt
                  ((valTable.columns.zip cdml.valueColumns).map (fun p =>
                    ResTarget.mk (some p.2.1)
                      (if p.2.2 then PgExpr.typeCast (colKindRes p.1) ["uuid"]
                        else colKindRes p.1)) ++
                  [ResTarget.mk (some cdml.valueIteratorName)
                    (PgExpr.funcCall ["edgedb", "uuid_generate_v4"] [] false)])
                  [FromItem.rangeSubselect valRel none] [] none [])] ++
              cdml.outputCtes),
          Table.mk [], ResolveCtx.mk ctx.subqueryDepth [] ctx.gen)) ∧
    (0 < ctx.subqueryDepth → ctx.subqueryDepth < 2 →
      resolveInsertStmt lookupDml resolveRel colKindRes resTargetRes ctx d =
        .ok (Query.selectStmt [] [] [] none
            (ctx.ctesBuffer ++
              [Cte.mk cdml.valueCteName none
                (Query.selectStmt
                  ((valTable.columns.zip cdml.valueColumns).map (fun p =>
                    ResTarget.mk (some p.2.1)
                      (if p.2.2 then PgExpr.typeCast (colKindRes p.1) ["uuid"]
                        else colKindRes p.1)) ++
                  [ResTarget.mk (some cdml.valueIteratorName)
                    (PgExpr.funcCall ["edgedb", "uuid_generate_v4"] [] false)])
                  [FromItem.rangeSubselect valRel none] [] none [])] ++
              cdml.outputCtes),
          Table.mk [], ResolveCtx.mk ctx.subqueryDepth [] ctx.gen)) := by
  constructor
  · intro h0
    unfold resolveInsertStmt
    rw [if_neg (by omega)]
    cases valRel with
    | selectStmt tl fc v lim c =>
      simp only [Query.getCtes] at hvc
      subst hvc
      simp [resolveInsertBody, hlk, hres, hret, hlen, h0, extractCtesFromCtx,
        Query.getCtes, Query.setCtes]
    | insertStmt dd =>
      cases dd with
      | mk i r a cs s c ret =>
        simp only [Query.getCtes] at hvc
        subst hvc
        simp [resolveInsertBody, hlk, hres, hret, hlen, h0, extractCtesFromCtx,
          Query.getCtes, Query.setCtes]
    | otherQuery t c po =>
      simp only [Query.getCtes] at hvc
      subst hvc
      simp [resolveInsertBody, hlk, hres, hret, hlen, h0, extractCtesFromCtx,
        Query.getCtes, Query.setCtes]
  · intro hlo hhi
    unfold resolveInsertStmt
    rw [if_neg (by omega)]
    have hne : ¬ ctx.subqueryDepth = 0 := by omega
    cases valRel with
    | selectStmt tl fc v lim c =>
      simp only [Query.getCtes] at hvc
      subst hvc
      simp [resolveInsertBody, hlk, hres, hret, hlen, hne, extractCtesFromCtx,
        Query.getCtes, Query.setCtes]
    | insertStmt dd =>
      cases dd with
      | mk i r a cs s c ret =>
        simp only [Query.getCtes] at hvc
        subst hvc
        simp [resolveInsertBody, hlk, hres, hret, hlen, hne, extractCtesFromCtx,
          Query.getCtes, Query.setCtes]
    | otherQuery t c po =>
      simp only [Query.getCtes] at hvc
      subst hvc
      simp [resolveInsertBody, hlk, hres, hret, hlen, hne, extractCtesFromCtx,
        Query.getCtes, Query.setCtes]

/-- Witness for the C7 theorem: a concrete one-column compiled statement at
depths 0 and 1. -/
theorem insert_no_returning_result_witness :
    resolveInsertStmt
        (fun i => if i = 5 then some (CompiledDML.mk "val_cte"
          (Query.selectStmt [] [] [] none []) [("a", false)] "iter_col"
          [Cte.mk "out_cte" (some 1) (Query.otherQuery 0 [] [])] "out_cte" [])
          else none)
        (fun _ => .ok (Query.selectStmt [] [] [] none [],
          Table.mk [Column.mk "a" false 0]))
        (fun _ => PgExpr.nullConstant) (fun _ => .error Err.keyError)
        (ResolveCtx.mk 0 [] (AliasGen.mk 0))
        (InsertData.mk 5 "T" none [] none [] []) =
      .ok (Query.selectStmt
          [ResTarget.mk none (PgExpr.funcCall ["count"] [] true)]
          [FromItem.relRangeVar "out_cte" none] [] none
          ([] ++
            [Cte.mk "val_cte" none
              (Query.selectStmt
                (([(Column.mk "a" false 0, ("a", false))].map (fun p =>
                  ResTarget.mk (some p.2.1)
                    (if p.2.2 then PgExpr.typeCast (PgExpr.nullConstant) ["uuid"]
                      else PgExpr.nullConstant)) : List ResTarget) ++
                [ResTarget.mk (some "iter_col")
                  (PgExpr.funcCall ["edgedb", "uuid_generate_v4"] [] false)])
                [FromItem.rangeSubselect (Query.selectStmt [] [] [] none []) none]
                [] none [])] ++
            [Cte.mk "out_cte" (some 1) (Query.otherQuery 0 [] [])]),
        Table.mk [], ResolveCtx.mk 0 [] (AliasGen.mk 0)) := by
  have h := (insert_no_returning_result
    (fun i => if i = 5 then some (CompiledDML.mk "val_cte"
      (Query.selectStmt [] [] [] none []) [("a", false)] "iter_col"
      [Cte.mk "out_cte" (some 1) (Query.otherQuery 0 [] [])] "out_cte" [])
      else none)
    (fun _ => .ok (Query.selectStmt [] [] [] none [],
      Table.mk [Column.mk "a" false 0]))
    (fun _ => PgExpr.nullConstant) (fun _ => .error Err.keyError)
    (ResolveCtx.mk 0 [] (AliasGen.mk 0))
    (InsertData.mk 5 "T" none [] none [] [])
    (CompiledDML.mk "val_cte" (Query.selectStmt [] [] [] none []) [("a", false)]
      "iter_col" [Cte.mk "out_cte" (some 1) (Query.otherQuery 0 [] [])] "out_cte" [])
    (Query.selectStmt [] [] [] none []) (Table.mk [Column.mk "a" false 0])
    rfl rfl rfl rfl rfl).1 rfl
  exact h.trans rfl

lemma exceptMapM_length {α β : Type} (f : α → Except Err β) :
    ∀ (l : List α) (r : List β), exceptMapM f l = .ok r → r.length = l.length := by
  intro l
  induction l with
  | nil =>
    intro r h
    simp only [exceptMapM] at h
    rw [← Except.ok.inj h]
    rfl
  | cons a as ih =>
    intro r h
    simp only [exceptMapM] at h
    cases h1 : f a with
    | error e => rw [h1] at h; exact absurd h (by simp)
    | ok b =>
      rw [h1] at h
      cases h2 : exceptMapM f as with
      | error e => rw [h2] at h; exact absurd h (by simp)
      | ok bs =>
        rw [h2] at h
        rw [← Except.ok.inj h]
        simp [ih bs h2]

lemma dmlNames_length (k : Nat) : (dmlNames k).length = k := by
  simp [dmlNames]

lemma processStmts_keys :
    ∀ (pairs : List (PreprocessedDML × Nat)) (ctes : List Cte)
      (mp : List (Nat × CompiledDML)) (lo : List Cte),
      processStmts pairs ctes = .ok (mp, lo) →
      mp.map Prod.fst = pairs.map (fun p => p.1.inputId) := by
  intro pairs
  induction pairs with
  | nil =>
    intro ctes mp lo h
    simp only [processStmts] at h
    injection h with h1
    injection h1 with ha hb
    rw [← ha]
    rfl
  | cons p rest ih =>
    intro ctes mp lo h
    obtain ⟨st, m⟩ := p
    simp only [processStmts] at h
    cases h1 : processOneStmt st m ctes with
    | error e =>
      simp only [h1] at h
      exact absurd h (by simp)
    | ok cd =>
      simp only [h1] at h
      cases h2 : processStmts rest cd.2 with
      | error e =>
        simp only [h2] at h
        exact absurd h (by simp)
      | ok acc =>
        simp only [h2] at h
        injection h with h1b
        injection h1b with ha hb
        rw [← ha]
        simp only [List.map_cons]
        rw [ih cd.2 acc.1 acc.2 (by rw [h2])]

lemma preprocessInsertObjectStmt_inputId
    (stmtId : Nat) (stmtSelect : Option Query) (stmtCtes : List Cte)
    (hasReturning : Bool) (sub : SubjectInfo) (subTable : Table)
    (ecols : List Column) (g : AliasGen) (rg : PreprocessedDML × AliasGen)
    (h : preprocessInsertObjectStmt stmtId stmtSelect stmtCtes hasReturning sub
      subTable ecols g = .ok rg) : rg.1.inputId = stmtId := by
  simp only [preprocessInsertObjectStmt] at h
  split at h
  · exact absurd h (by simp)
  · split at h
    · exact absurd h (by simp)
    · split at h
      · exact absurd h (by simp)
      · injection h with h1
        rw [← h1]

lemma preprocessInsertPointerStmt_inputId
    (stmtId : Nat) (stmtSelect : Option Query) (stmtCtes : List Cte)
    (hasReturning : Bool) (sub : SubjectInfo) (subTable : Table)
    (ecols : List Column) (g : AliasGen) (rg : PreprocessedDML × AliasGen)
    (h : preprocessInsertPointerStmt stmtId stmtSelect stmtCtes hasReturning sub
      subTable ecols g = .ok rg) : rg.1.inputId = stmtId := by
  simp only [preprocessInsertPointerStmt] at h
  split at h
  · exact absurd h (by simp)
  · split at h
    · exact absurd h (by simp)
    · split at h
      · exact absurd h (by simp)
      · exact absurd h (by simp)
      · split at h
        · exact absurd h (by simp)
        · split at h
          · exact absurd h (by simp)
          · split at h
            · exact absurd h (by simp)
            · injection h with h1
              rw [← h1]

lemma preprocessInsertStmt_inputId
    (resolveSubject : String → Except Err (Table × SubjectInfo))
    (s : Query) (g : AliasGen) (rg : PreprocessedDML × AliasGen)
    (h : preprocessInsertStmt resolveSubject s g = .ok rg) :
    insertIdOf s = some rg.1.inputId := by
  cases s with
  | selectStmt tl fc v lim c =>
    exact absurd h (by simp [preprocessInsertStmt])
  | otherQuery t c po =>
    exact absurd h (by simp [preprocessInsertStmt])
  | insertStmt d =>
    simp only [preprocessInsertStmt] at h
    cases hrs : resolveSubject d.relName with
    | error e =>
      simp only [hrs] at h
      exact absurd h (by simp)
    | ok ts =>
      simp only [hrs] at h
      cases hpc : pullColumnsFromTable ts.1
          (if d.cols ≠ [] then some d.cols else none) with
      | error e =>
        simp only [hpc] at h
        exact absurd h (by simp)
      | ok ecols =>
        simp only [hpc] at h
        cases hk : ts.2.kind with
        | otherObject =>
          simp only [hk] at h
          exact absurd h (by simp)
        | objectType =>
          simp only [hk] at h
          cases hd : preprocessInsertObjectStmt d.id d.selectStmt d.ctes
              (!d.returningList.isEmpty) ts.2 ts.1 ecols g with
          | error e =>
            simp only [hd] at h
            exact absurd h (by simp)
          | ok rg0 =>
            simp only [hd] at h
            have hid := preprocessInsertObjectStmt_inputId _ _ _ _ _ _ _ _ _ hd
            by_cases hret : d.returningList.isEmpty = true
            · rw [if_pos hret] at h
              injection h with h1
              rw [← h1]
              simp [insertIdOf, hid]
            · rw [if_neg hret] at h
              cases hsc : subjectColumnsOf ts.2 ts.1 with
              | error e =>
                simp only [hsc] at h
                exact absurd h (by simp)
              | ok subjCols =>
                simp only [hsc] at h
                injection h with h1
                rw [← h1]
                simp [insertIdOf, hid]
        | link =>
          simp only [hk] at h
          cases hd : preprocessInsertPointerStmt d.id d.selectStmt d.ctes
              (!d.returningList.isEmpty) ts.2 ts.1 ecols g with
          | error e =>
            simp only [hd] at h
            exact absurd h (by simp)
          | ok rg0 =>
            simp only [hd] at h
            have hid := preprocessInsertPointerStmt_inputId _ _ _ _ _ _ _ _ _ hd
            by_cases hret : d.returningList.isEmpty = true
            · rw [if_pos hret] at h
              injection h with h1
              rw [← h1]
              simp [insertIdOf, hid]
            · rw [if_neg hret] at h
              cases hsc : subjectColumnsOf ts.2 ts.1 with
              | error e =>
                simp only [hsc] at h
                exact absurd h (by simp)
              | ok subjCols =>
                simp only [hsc] at h
                injection h with h1
                rw [← h1]
                simp [insertIdOf, hid]
        | property =>
          simp only [hk] at h
          cases hd : preprocessInsertPointerStmt d.id d.selectStmt d.ctes
              (!d.returningList.isEmpty) ts.2 ts.1 ecols g with
          | error e =>
            simp only [hd] at h
            exact absurd h (by simp)
          | ok rg0 =>
            simp only [hd] at h
            have hid := preprocessInsertPointerStmt_inputId _ _ _ _ _ _ _ _ _ hd
            by_cases hret : d.returningList.isEmpty = true
            · rw [if_pos hret] at h
              injection h with h1
              rw [← h1]
              simp [insertIdOf, hid]
            · rw [if_neg hret] at h
              cases hsc : subjectColumnsOf ts.2 ts.1 with
              | error e =>
                simp only [hsc] at h
                exact absurd h (by simp)
              | ok subjCols =>
                simp only [hsc] at h
                injection h with h1
                rw [← h1]
                simp [insertIdOf, hid]

lemma preprocessAll_ids (resolveSubject : String → Except Err (Table × SubjectInfo)) :
    ∀ (l : List Query) (g : AliasGen) (ps : List PreprocessedDML) (g2 : AliasGen),
      preprocessAll resolveSubject l g = .ok (ps, g2) →
      ps.map (fun p => p.inputId) = l.filterMap insertIdOf := by
  intro l
  induction l with
  | nil =>
    intro g ps g2 h
    simp only [preprocessAll] at h
    injection h with h1
    injection h1 with ha hb
    rw [← ha]
    rfl
  | cons s rest ih =>
    intro g ps g2 h
    simp only [preprocessAll] at h
    cases h1 : preprocessInsertStmt resolveSubject s g with
    | error e =>
      simp only [h1] at h
      exact absurd h (by simp)
    | ok pg =>
      simp only [h1] at h
      cases h2 : preprocessAll resolveSubject rest pg.2 with
      | error e =>
        simp only [h2] at h
        exact absurd h (by simp)
      | ok acc =>
        simp only [h2] at h
        injection h with h1b
        injection h1b with ha hb
        rw [← ha]
        have hid := preprocessInsertStmt_inputId resolveSubject s g pg h1
        simp only [List.map_cons, List.filterMap_cons, hid]
        rw [ih pg.2 acc.1 acc.2 (by rw [h2])]

lemma compileDml_keys (resolveSubject : String → Except Err (Table × SubjectInfo))
    (compiler : QlExpr → List PathId → List (String × PathId) →
      Except Err CompilerOutput)
    (top : Query) (g : AliasGen)
    (mp : List (Nat × CompiledDML)) (lo : List Cte)
    (h : compileDml resolveSubject compiler top g = .ok (mp, lo)) :
    mp.map Prod.fst = (collectDmlStmts top).filterMap insertIdOf := by
  unfold compileDml at h
  by_cases hemp : (collectDmlStmts top).isEmpty = true
  · rw [if_pos hemp] at h
    injection h with h1
    injection h1 with ha hb
    rw [← ha, List.isEmpty_iff.mp hemp]
    rfl
  · rw [if_neg hemp] at h
    cases hpre : preprocessAll resolveSubject (collectDmlStmts top) g with
    | error e =>
      simp only [hpre] at h
      exact absurd h (by simp)
    | ok sg =>
      simp only [hpre] at h
      unfold compilePreprocessedDml at h
      cases hc : compiler (buildMergedQl sg.1) (mergedSingletons sg.1)
          (mergedAnchors sg.1) with
      | error e =>
        simp only [hc] at h
        cases e <;> simp at h
      | ok out =>
        simp only [hc] at h
        cases hirs : irStmtsOf out.irShape sg.1 (dmlNames sg.1.length) with
        | error e =>
          simp only [hirs] at h
          cases e <;> simp at h
        | ok irs =>
          simp only [hirs] at h
          by_cases hce : out.ctes.isEmpty = true
          · rw [if_pos hce] at h
            exact absurd h (by simp)
          · rw [if_neg hce] at h
            have hkeys := processStmts_keys (sg.1.zip irs) out.ctes mp lo h
            have hlirs : irs.length = ((dmlNames sg.1.length).zip sg.1).length :=
              exceptMapM_length _ _ _ hirs
            have hle : sg.1.length ≤ irs.length := by
              rw [hlirs, List.length_zip, dmlNames_length]
              omega
            rw [hkeys]
            rw [show (fun p : PreprocessedDML × Nat => p.1.inputId) =
              (fun x : PreprocessedDML => x.inputId) ∘ Prod.fst from rfl]
            rw [← List.map_map, List.map_fst_zip sg.1 irs hle]
            exact preprocessAll_ids resolveSubject (collectDmlStmts top) g sg.1 sg.2
              (by rw [hpre])

/-- C9: when `compile_dml` succeeds on a top-level query (and the collected
statement nodes are distinct objects, i.e. their identities are nodup), every
`InsertStmt` it gathers — the `InsertStmt` queries of the query's immediate
CTEs plus the top-level statement itself when it is one — owns exactly one
`CompiledDML` entry in the produced mapping; and a resolved `InsertStmt`
whose identity has no entry fails with the fatal `KeyError` of the
compiled-DML dictionary lookup, not with a user-facing query error. -/
theorem compiled_dml_entry_unique :
    (∀ (resolveSubject : String → Except Err (Table × SubjectInfo))
       (compiler : QlExpr → List PathId → List (String × PathId) →
         Except Err CompilerOutput)
       (top : Query) (g : AliasGen)
       (mapping : List (Nat × CompiledDML)) (leftover : List Cte),
      compileDml resolveSubject compiler top g = .ok (mapping, leftover) →
      ((collectDmlStmts top).filterMap insertIdOf).Nodup →
      ∀ s ∈ collectDmlStmts top, ∀ i, insertIdOf s = some i →
        (mapping.map Prod.fst).count i = 1) ∧
    (∀ (lookupDml : Nat → Option CompiledDML)
       (resolveRel : Query → Except Err (Query × Table))
       (colKindRes : Column → PgExpr)
       (resTargetRes : ResTarget → Except Err (List ResTarget × List Column))
       (ctx : ResolveCtx) (d : InsertData),
      lookupDml d.id = none → ¬ 2 ≤ ctx.subqueryDepth →
      resolveInsertStmt lookupDml resolveRel colKindRes resTargetRes ctx d =
        .error Err.keyError) := by
  constructor
  · intro resolveSubject compiler top g mapping leftover h hnd s hs i hi
    have hkeys := compileDml_keys resolveSubject compiler top g mapping leftover h
    have hmem : i ∈ (collectDmlStmts top).filterMap insertIdOf :=
      List.mem_filterMap.mpr ⟨s, hs, hi⟩
    rw [hkeys]
    exact List.count_eq_one_of_mem hnd hmem
  · intro lookupDml resolveRel colKindRes resTargetRes ctx d hlk hd
    unfold resolveInsertStmt
    rw [if_neg hd]
    unfold resolveInsertBody
    rw [hlk]

/-- Witness for the C9 theorem: a one-statement batch compiled through a
stub compiler yields exactly one mapping entry for the statement's identity,
and a missing entry at resolve time is a `KeyError`. -/
theorem compiled_dml_entry_unique_witness :
    (∃ ml, compileDml
        (fun _ => .ok (Table.mk [Column.mk "a" false 0],
          SubjectInfo.mk SubjectKind.objectType "default::T" "T" none false none
            false (fun _ => true) (fun _ => none)))
        (fun _ _ _ => .ok (CompilerOutput.mk [("dml_0", IrNode.mutating 3)]
          [Cte.mk "c0" (some 3) (Query.otherQuery 0 [] [])]))
        (Query.insertStmt (InsertData.mk 7 "T" none ["a"] none [] []))
        (AliasGen.mk 0) = .ok ml ∧
      (ml.1.map Prod.fst).count 7 = 1) ∧
    resolveInsertStmt (fun _ => none) (fun _ => .error Err.keyError)
        (fun _ => PgExpr.nullConstant) (fun _ => .error Err.keyError)
        (ResolveCtx.mk 0 [] (AliasGen.mk 0))
        (InsertData.mk 7 "T" none [] none [] []) =
      .error Err.keyError := by
  constructor
  · obtain ⟨ml, hml⟩ : ∃ ml, compileDml
        (fun _ => .ok (Table.mk [Column.mk "a" false 0],
          SubjectInfo.mk SubjectKind.objectType "default::T" "T" none false none
            false (fun _ => true) (fun _ => none)))
        (fun _ _ _ => .ok (CompilerOutput.mk [("dml_0", IrNode.mutating 3)]
          [Cte.mk "c0" (some 3) (Query.otherQuery 0 [] [])]))
        (Query.insertStmt (InsertData.mk 7 "T" none ["a"] none [] []))
        (AliasGen.mk 0) = .ok ml := ⟨_, rfl⟩
    refine ⟨ml, hml, ?_⟩
    refine compiled_dml_entry_unique.1 _ _ _ _ ml.1 ml.2 hml (by decide)
      (Query.insertStmt (InsertData.mk 7 "T" none ["a"] none [] [])) ?_ 7 rfl
    exact List.mem_singleton.mpr rfl
  · exact compiled_dml_entry_unique.2 (fun _ => none) (fun _ => .error Err.keyError)
      (fun _ => PgExpr.nullConstant) (fun _ => .error Err.keyError)
      (ResolveCtx.mk 0 [] (AliasGen.mk 0))
      (InsertData.mk 7 "T" none [] none [] []) rfl (by decide)

end EdgeRel
